import Mathlib

/-!
Verification of the stagdeck theme/layout core against its specification.

The Python sources under `stagdeck/` are shallowly embedded: pure functions
become Lean functions over `String`/`List`/`ℚ`, Python `None` becomes
`Option.none`, Python dicts become association lists with first-match lookup
and replace-or-append update (mirroring dict key uniqueness and insertion
order), and Python float arithmetic on the small decimal constants used by
the layout heuristics is modeled exactly over `ℚ`.
-/

namespace Stagdeck

/-! ## Python string primitives

Helpers mirroring the exact Python `str` operations used by the sources:
`str.strip`, `str.split('\n')`, `str.startswith`, substring containment
(`in`), `str.count` for a single character, and `str.split()` (whitespace
words). Whitespace is the ASCII whitespace set recognized by `str.isspace`
for the character ranges that occur in slide markdown.
-/

/-- Characters stripped by Python `str.strip()` (ASCII whitespace). -/
def isPySpace (c : Char) : Bool :=
  c == ' ' || c == '\t' || c == '\n' || c == '\r' ||
  c == Char.ofNat 11 || c == Char.ofNat 12

/-- Python `s.strip()`. -/
def pyStrip (s : String) : String :=
  (((s.toList.dropWhile isPySpace).reverse.dropWhile isPySpace).reverse).asString

/-- Helper for single-character splits: accumulates the current piece. -/
def splitOnCharAux (c : Char) : List Char → List Char → List String
  | [], acc => [acc.reverse.asString]
  | x :: t, acc =>
    if x == c then acc.reverse.asString :: splitOnCharAux c t []
    else splitOnCharAux c t (x :: acc)

/-- Python `s.split(c)` for a single-character separator. -/
def splitOnChar (c : Char) (s : String) : List String :=
  splitOnCharAux c s.toList []

/-- Python `s.split('\n')`. -/
def splitLines (s : String) : List String := splitOnChar '\n' s

/-- Boolean infix test on character lists, mirroring Python `pat in s`. -/
def hasInfix (pat : List Char) : List Char → Bool
  | [] => pat.isEmpty
  | c :: t => pat.isPrefixOf (c :: t) || hasInfix pat t

/-- Python substring containment `pat in s`. -/
def strHas (s pat : String) : Bool := hasInfix pat.toList s.toList

/-- Python `s.startswith(p)`. -/
def pyStartsWith (s p : String) : Bool := p.toList.isPrefixOf s.toList

/-- Python `s.count(c)` for a single character `c`. -/
def countChar (s : String) (c : Char) : Nat :=
  s.toList.countP (fun x => x == c)

/-- Python `s.split()` (split on runs of whitespace, dropping empty words). -/
def pyWords (s : String) : List String :=
  ((s.toList.splitOnP isPySpace).map List.asString).filter (fun w => w ≠ "")

/-- Characters matched by the regex class `\w` (ASCII portion). -/
def isWordChar (c : Char) : Bool := c.isAlphanum || c == '_'

theorem length_dropWhile_le (p : Char → Bool) (l : List Char) :
    (l.dropWhile p).length ≤ l.length := by
  induction l with
  | nil => simp
  | cons c t ih =>
    by_cases h : p c <;> simp [List.dropWhile, h] <;> omega

/-! ## analyze_content (components/slide_layout.py, lines 126-196) -/

/-- ContentMetrics dataclass (slide_layout.py lines 102-123); `avg_cell_length`
is a Python float, modeled as `ℚ`. -/
structure ContentMetrics where
  content_type : String := "text"
  table_rows : Nat := 0
  table_cols : Nat := 0
  avg_cell_length : ℚ := 0
  max_cell_length : Nat := 0
  bullet_count : Nat := 0
  max_line_length : Nat := 0
  code_lines : Nat := 0
  max_code_line_length : Nat := 0
  total_chars : Nat := 0
  line_count : Nat := 0
  deriving Repr, DecidableEq

/-- Cell extraction for one table line:
Python `[c.strip() for c in line.split('|') if c.strip()]`. -/
def tableCells (line : String) : List String :=
  ((splitOnChar '|' line).map pyStrip).filter (fun c => c ≠ "")

/-- A line matching the bullet regex `^[\s]*[-*+]\s+` anchored at its start:
optional whitespace, a marker, then at least one whitespace character. -/
def tryBulletMatch (s : List Char) : Option (List Char) :=
  match s.dropWhile isPySpace with
  | m :: rest =>
    if (m == '-' || m == '*' || m == '+') then
      match rest with
      | c :: _ =>
        if isPySpace c then some (rest.dropWhile isPySpace) else none
      | [] => none
    else none
  | [] => none

/-- Whether the character immediately before the suffix `rest` of `s` is a
newline (the suffix is located by length). -/
def lastConsumedWasNewline (s rest : List Char) : Bool :=
  match (s.take (s.length - rest.length)).getLast? with
  | some '\n' => true
  | _ => false

/-- Number of matches of `re.findall(r'^[\s]*[-*+]\s+', content, re.MULTILINE)`:
a left-to-right scan in which `^` fires at the string start and right after
each newline, and each match consumes its maximal `\s+` run (which may span
line breaks). `atStart` records whether the current position is a line start;
after a match it is a line start iff the last consumed character was `'\n'`.
The fuel argument only bounds the recursion; every step consumes at least one
character, so `bulletScan` below supplies enough fuel for it never to run
out. -/
def bulletScanF : Nat → Bool → List Char → Nat
  | 0, _, _ => 0
  | _, _, [] => 0
  | fuel + 1, atStart, c :: t =>
    if atStart then
      match tryBulletMatch (c :: t) with
      | some rest =>
        1 + bulletScanF fuel (lastConsumedWasNewline (c :: t) rest) rest
      | none => bulletScanF fuel (c == '\n') t
    else bulletScanF fuel (c == '\n') t

/-- Bullet-pattern match count over a whole content string. -/
def bulletScan (s : List Char) : Nat := bulletScanF s.length true s

/-- Matches of the code-fence regex `` ```\w*\n(.*?)``` `` (re.DOTALL):
find the earliest closing fence, returning the captured block and the rest. -/
def findCloseTicks : List Char → Option (List Char × List Char)
  | [] => none
  | c :: t =>
    if ['`', '`', '`'].isPrefixOf (c :: t) then some ([], (c :: t).drop 3)
    else (findCloseTicks t).map (fun p => (c :: p.1, p.2))

/-- Left-to-right scan for `re.findall(r'```\w*\n(.*?)```', content, re.DOTALL)`:
at each position, an opening fence followed by `\w*` and a newline starts a
match captured up to the earliest closing fence; otherwise advance one char.
As with `bulletScanF`, the fuel only bounds the recursion and every step
consumes at least one character. -/
def codeScanF : Nat → List Char → List (List Char)
  | 0, _ => []
  | _, [] => []
  | fuel + 1, c :: t =>
    if ['`', '`', '`'].isPrefixOf (c :: t) then
      match ((c :: t).drop 3).dropWhile isWordChar with
      | '\n' :: body =>
        match findCloseTicks body with
        | some (block, after) => block :: codeScanF fuel after
        | none => []
      | _ => codeScanF fuel t
    else codeScanF fuel t

/-- Code-fence match list over a whole content string. -/
def codeScan (s : List Char) : List (List Char) := codeScanF s.length s

/-- Pure content analysis (slide_layout.py `analyze_content`). -/
def analyze_content (content0 : String) : ContentMetrics :=
  let content := pyStrip content0
  if content = "" then {} else
  let total_chars := content.length
  let line_count := countChar content '\n' + 1
  if pyStartsWith content "|" && strHas content "|" then
    let lines := (splitLines content).filter (fun l => pyStartsWith (pyStrip l) "|")
    -- data rows: `not l.strip().startswith('|--') and not l.strip().startswith('|-')`
    -- (the first conjunct is subsumed by the second)
    let data_lines := lines.filter (fun l =>
      !pyStartsWith (pyStrip l) "|--" && !pyStartsWith (pyStrip l) "|-")
    let table_cols := match lines with
      | [] => 0
      | l0 :: _ => (tableCells l0).length
    let all_cells := (data_lines.map tableCells).flatten
    let avg : ℚ := if all_cells ≠ [] then
        ((all_cells.map String.length).sum : ℚ) / (all_cells.length : ℚ)
      else 0
    let maxc := all_cells.foldl (fun m c => max m c.length) 0
    { content_type := "table", total_chars, line_count,
      table_rows := data_lines.length, table_cols,
      avg_cell_length := avg, max_cell_length := maxc }
  else if strHas content "```" then
    let blocks := codeScan content.toList
    if blocks ≠ [] then
      let code := String.intercalate "\n" (blocks.map List.asString)
      let code_line_list := splitLines code
      { content_type := "code", total_chars, line_count,
        code_lines := code_line_list.length,
        max_code_line_length :=
          code_line_list.foldl (fun m l => max m l.length) 0 }
    else
      { content_type := "code", total_chars, line_count }
  else if bulletScan content.toList > 0 then
    { content_type := "bullets", total_chars, line_count,
      bullet_count := bulletScan content.toList,
      max_line_length :=
        (splitLines content).foldl (fun m l => max m l.length) 0 }
  else
    { content_type := "text", total_chars, line_count,
      max_line_length :=
        (splitLines content).foldl (fun m l => max m l.length) 0 }

/-! ## calculate_content_scale (components/slide_layout.py, lines 199-286)

The Python code computes, in one `if`/`elif` chain, a base size and a scale
per content type, then floors the scale at `config.min_scale` and returns
`(base_size * scale, scale)`.  The scale computation only reads the metrics
and the base size only reads the config, so they are split into two helpers
here; `calculate_content_scale` recombines them exactly as lines 284-286 do.
Python float constants are modeled as the exact rationals they denote in the
source text.
-/

/-- LayoutConfig dataclass (slide_layout.py lines 31-65). -/
structure LayoutConfig where
  margin_top : ℚ := 3
  margin_bottom : ℚ := 6
  margin_left : ℚ := 5
  margin_right : ℚ := 5
  title_height : ℚ := 10
  title_gap : ℚ := 2.5
  title_only_size : ℚ := 8
  subtitle_size : ℚ := 3.5
  content_only_padding : ℚ := 8
  title_size : ℚ := 4.5
  content_title_gap : ℚ := 3
  base_text_size : ℚ := 2
  base_table_size : ℚ := 1.8
  base_code_size : ℚ := 1.6
  min_scale : ℚ := 0.4
  deriving Repr, DecidableEq

/-- The module-level `DEFAULT_CONFIG = LayoutConfig()`. -/
def DEFAULT_CONFIG : LayoutConfig := {}

/-- Scale factor before the `min_scale` floor (lines 206-281). -/
def contentScaleRaw (metrics : ContentMetrics) : ℚ :=
  if metrics.content_type = "table" then
    let scale : ℚ :=
      if metrics.table_rows ≤ 5 then 1.6
      else if metrics.table_rows ≤ 7 then 1.4
      else if metrics.table_rows ≤ 8 then 1.2
      else if metrics.table_rows ≤ 10 then 1.0
      else if metrics.table_rows ≤ 12 then 0.8
      else 0.65
    let scale :=
      if metrics.table_cols > 6 then scale * 0.9
      else if metrics.table_cols > 5 then scale * 0.95
      else scale
    if metrics.avg_cell_length > 30 then scale * 0.9
    else if metrics.avg_cell_length > 20 then scale * 0.95
    else scale
  else if metrics.content_type = "bullets" then
    let scale : ℚ := 1
    let scale :=
      if metrics.bullet_count > 10 then min scale 0.7
      else if metrics.bullet_count > 8 then min scale 0.8
      else if metrics.bullet_count > 6 then min scale 0.9
      else scale
    if metrics.max_line_length > 100 then min scale 0.8
    else if metrics.max_line_length > 80 then min scale 0.9
    else scale
  else if metrics.content_type = "code" then
    let scale : ℚ := 1
    let scale :=
      if metrics.code_lines > 20 then min scale 0.7
      else if metrics.code_lines > 15 then min scale 0.8
      else if metrics.code_lines > 10 then min scale 0.9
      else scale
    if metrics.max_code_line_length > 80 then min scale 0.8
    else if metrics.max_code_line_length > 60 then min scale 0.9
    else scale
  else
    let scale : ℚ := 1
    if metrics.total_chars > 800 then min scale 0.7
    else if metrics.total_chars > 500 then min scale 0.85
    else scale

/-- Base size chosen by the same `if`/`elif` chain (lines 209, 241, 258, 275). -/
def contentBaseSize (metrics : ContentMetrics) (config : LayoutConfig) : ℚ :=
  if metrics.content_type = "table" then config.base_table_size
  else if metrics.content_type = "bullets" then config.base_text_size
  else if metrics.content_type = "code" then config.base_code_size
  else config.base_text_size

/-- Pure scaling function (slide_layout.py `calculate_content_scale`): floors
the scale at `config.min_scale` and returns `(base_size * scale, scale)`. -/
def calculate_content_scale (metrics : ContentMetrics) (config : LayoutConfig) :
    ℚ × ℚ :=
  let scale := max (contentScaleRaw metrics) config.min_scale
  (contentBaseSize metrics config * scale, scale)

/-! ## detect_layout_mode (components/slide_layout.py, lines 289-319) -/

/-- LayoutMode enum (slide_layout.py lines 23-28). -/
inductive LayoutMode where
  | TITLE_ONLY
  | TITLE_CENTERED
  | CONTENT_ONLY
  | TITLE_CONTENT
  deriving Repr, DecidableEq

/-- The slide shape consumed by `detect_layout_mode`: the title, subtitle and
content strings and the result of `slide.has_custom_build()`. -/
structure Slide where
  title : String
  subtitle : String
  content : String
  hasCustomBuild : Bool
  deriving Repr, DecidableEq

/-- Layout mode decision (slide_layout.py `detect_layout_mode`). -/
def detect_layout_mode (slide : Slide) : LayoutMode :=
  let has_title := slide.title != ""
  let has_content := slide.content != "" || slide.hasCustomBuild
  let has_subtitle := slide.subtitle != ""
  if has_title && !has_content && !has_subtitle then .TITLE_ONLY
  else if has_title && has_subtitle && !has_content then .TITLE_ONLY
  else if !has_title && has_content then .CONTENT_ONLY
  else if has_title && has_subtitle && has_content then
    let content := pyStrip slide.content
    let is_small := decide (content.length < 300) && !strHas content "|" &&
      !strHas content "```" && decide (countChar content '\n' < 8)
    if is_small then .TITLE_CENTERED else .TITLE_CONTENT
  else .TITLE_CONTENT

/-! ## Claim-side (specification) formulations for the layout claims -/

/-- Table scale factor as claim C5 words it: a row-count tier multiplied by a
column factor and a cell-length factor. -/
def claimTableScale (rows cols : Nat) (avg : ℚ) : ℚ :=
  (if rows ≤ 5 then 1.6 else if rows ≤ 7 then 1.4 else if rows ≤ 8 then 1.2
   else if rows ≤ 10 then 1.0 else if rows ≤ 12 then 0.8 else 0.65)
  * (if cols > 6 then 0.9 else if cols > 5 then 0.95 else 1)
  * (if avg > 30 then 0.9 else if avg > 20 then 0.95 else 1)

/-- Classification priority as claim C6 words it: table, then code, then
bullets, then text ("plain text" covers empty content). -/
def claimClassify (content : String) : String :=
  let s := pyStrip content
  if pyStartsWith s "|" && strHas s "|" then "table"
  else if strHas s "```" then "code"
  else if bulletScan s.toList > 0 then "bullets"
  else "text"

/-- Row count exactly as claim C6 states it: lines starting with `'|'`
excluding lines that are purely `'-'`/`':'` separators, a separator being a
line whose characters are only `'|'`, `'-'`, `':'` and spaces with at least
one dash. -/
def claimTableRows (content : String) : Nat :=
  ((splitLines (pyStrip content)).filter (fun l =>
    pyStartsWith (pyStrip l) "|" &&
    !((pyStrip l).toList.all (fun c => c == '|' || c == '-' || c == ':' || c == ' ')
      && (pyStrip l).toList.any (fun c => c == '-')))).length

/-- Row count as the code actually computes it (the amended claim C6): lines
starting with `'|'` excluding those whose stripped form starts with `"|-"`. -/
def amendedTableRows (content : String) : Nat :=
  ((splitLines (pyStrip content)).filter (fun l =>
    pyStartsWith (pyStrip l) "|" && !pyStartsWith (pyStrip l) "|-")).length

/-- Column count: cell count of the first line starting with `'|'`. -/
def claimFirstRowCells (content : String) : Nat :=
  match (splitLines (pyStrip content)).filter
      (fun l => pyStartsWith (pyStrip l) "|") with
  | [] => 0
  | l0 :: _ => (tableCells l0).length

/-- Layout mode decision as claim C7 words it. -/
def claimLayoutMode (slide : Slide) : LayoutMode :=
  let has_title := slide.title != ""
  let has_content := slide.content != "" || slide.hasCustomBuild
  let has_subtitle := slide.subtitle != ""
  let content := pyStrip slide.content
  let is_small := decide (content.length < 300) && !strHas content "|" &&
    !strHas content "```" && decide (countChar content '\n' < 8)
  if has_title && !has_content then .TITLE_ONLY
  else if !has_title && has_content then .CONTENT_ONLY
  else if has_title && has_subtitle && has_content && is_small then .TITLE_CENTERED
  else .TITLE_CONTENT

/-- A title + subtitle slide whose content is a 10-row table with fewer than
300 characters (the claim C7 example). -/
def tenRowTableSlide : Slide :=
  { title := "T", subtitle := "S",
    content := "| a | b |\n| 1 | 2 |\n| 1 | 2 |\n| 1 | 2 |\n| 1 | 2 |\n| 1 | 2 |\n| 1 | 2 |\n| 1 | 2 |\n| 1 | 2 |\n| 1 | 2 |",
    hasCustomBuild := false }

theorem pyStartsWith_pipe_dash_of_dashdash (s : String) :
    pyStartsWith s "|--" = true → pyStartsWith s "|-" = true := by
  intro h
  unfold pyStartsWith at h ⊢
  rw [List.isPrefixOf_iff_prefix] at h ⊢
  exact List.IsPrefix.trans ⟨['-'], rfl⟩ h

/-! ## Claim theorems C5, C6, C7 -/

/-- Claim C5: for table metrics the scale is exactly the claimed tier formula
floored at `min_scale`; non-table content never scales above 1.0 (for any
config whose `min_scale` is at most 1, as the default 0.4 is); every result
is at least `min_scale`; and the font size is the type's base size times the
final scale. -/
theorem claim_C5_content_scale (m : ContentMetrics) (config : LayoutConfig) :
    (m.content_type = "table" →
      (calculate_content_scale m config).2
        = max (claimTableScale m.table_rows m.table_cols m.avg_cell_length)
            config.min_scale)
    ∧ (m.content_type ≠ "table" → config.min_scale ≤ 1 →
        (calculate_content_scale m config).2 ≤ 1)
    ∧ config.min_scale ≤ (calculate_content_scale m config).2
    ∧ (calculate_content_scale m config).1
        = contentBaseSize m config * (calculate_content_scale m config).2 := by
  refine ⟨?_, ?_, ?_, ?_⟩
  · intro h
    unfold calculate_content_scale contentScaleRaw claimTableScale
    rw [if_pos h]
    split_ifs <;> ring_nf
  · intro h hm
    unfold calculate_content_scale contentScaleRaw
    rw [if_neg h]
    refine max_le ?_ hm
    split_ifs <;> norm_num
  · exact le_max_right _ _
  · rfl

/-- Claim C5 witness: the theorem applied at the example table metrics and at
plain-text metrics with the default config. -/
theorem claim_C5_content_scale_witness :
    (calculate_content_scale { content_type := "table", table_rows := 3 }
        DEFAULT_CONFIG).2
      = max (claimTableScale 3 0 0) DEFAULT_CONFIG.min_scale
    ∧ (calculate_content_scale { content_type := "text", total_chars := 900 }
        DEFAULT_CONFIG).2 ≤ 1 :=
  ⟨(claim_C5_content_scale { content_type := "table", table_rows := 3 }
      DEFAULT_CONFIG).1 rfl,
   (claim_C5_content_scale { content_type := "text", total_chars := 900 }
      DEFAULT_CONFIG).2.1 (by decide) (by norm_num [DEFAULT_CONFIG])⟩

/-- Claim C6 counterexample: on `"|A|\n|:-|\n|B|"` the middle line is purely a
`'-'`/`':'` separator, so the claim's row rule gives 2 rows, but the code only
excludes lines starting with `"|-"` and counts 3. -/
theorem claim_C6_counterexample :
    (analyze_content "|A|\n|:-|\n|B|").content_type = "table"
    ∧ (analyze_content "|A|\n|:-|\n|B|").table_rows = 3
    ∧ claimTableRows "|A|\n|:-|\n|B|" = 2 := by
  refine ⟨?_, ?_, ?_⟩ <;> decide

/-- Claim C6 (amended): classification is mutually exclusive in the priority
order table, code, bullets, text; for table content the rows are the lines
starting with `'|'` excluding those whose stripped form starts with `"|-"`,
and the columns are the cell count of the first `'|'` line; and the three
concrete examples classify as stated. -/
theorem claim_C6_classification :
    (∀ c, (analyze_content c).content_type = claimClassify c)
    ∧ (∀ c, pyStartsWith (pyStrip c) "|" → strHas (pyStrip c) "|" →
        (analyze_content c).table_rows = amendedTableRows c
        ∧ (analyze_content c).table_cols = claimFirstRowCells c)
    ∧ (analyze_content "| A | B |\n|---|---|\n| 1 | 2 |").content_type = "table"
    ∧ (analyze_content "| A | B |\n|---|---|\n| 1 | 2 |").table_rows = 2
    ∧ (analyze_content "| A | B |\n|---|---|\n| 1 | 2 |").table_cols = 2
    ∧ (analyze_content "- one\n- two\n- three").content_type = "bullets"
    ∧ (analyze_content "- one\n- two\n- three").bullet_count = 3
    ∧ (analyze_content "see ``` fence").content_type = "code" := by
  refine ⟨?_, ?_, by decide, by decide, by decide, by decide, by decide, by decide⟩
  · intro c
    unfold analyze_content claimClassify
    by_cases h0 : pyStrip c = ""
    · simp only [h0, if_pos]
      decide
    · rw [if_neg h0]
      by_cases h1 : (pyStartsWith (pyStrip c) "|" && strHas (pyStrip c) "|") = true
      · simp only [h1, if_pos]
      · simp only [Bool.not_eq_true] at h1
        simp only [h1, Bool.false_eq_true, if_false]
        by_cases h2 : strHas (pyStrip c) "```" = true
        · simp only [h2, if_pos]
          split <;> rfl
        · simp only [Bool.not_eq_true] at h2
          simp only [h2, Bool.false_eq_true, if_false]
          by_cases h3 : bulletScan (pyStrip c).toList > 0
          · simp only [if_pos h3]
          · simp only [if_neg h3]
  · intro c h1 h2
    unfold analyze_content amendedTableRows claimFirstRowCells
    have h0 : pyStrip c ≠ "" := by
      intro he
      rw [he] at h1
      exact absurd h1 (by decide)
    rw [if_neg h0, if_pos (by rw [h1, h2]; rfl)]
    constructor
    · show (List.filter (fun l =>
            !pyStartsWith (pyStrip l) "|--" && !pyStartsWith (pyStrip l) "|-")
          (List.filter (fun l => pyStartsWith (pyStrip l) "|")
            (splitLines (pyStrip c)))).length
        = (List.filter (fun l =>
            pyStartsWith (pyStrip l) "|" && !pyStartsWith (pyStrip l) "|-")
            (splitLines (pyStrip c))).length
      rw [List.filter_filter]
      refine congrArg List.length (List.filter_congr ?_)
      intro x _
      cases hb : pyStartsWith (pyStrip x) "|-" with
      | true => simp [hb]
      | false =>
        have hbb : pyStartsWith (pyStrip x) "|--" = false := by
          cases hc : pyStartsWith (pyStrip x) "|--"
          · rfl
          · exact absurd (pyStartsWith_pipe_dash_of_dashdash _ hc) (by simp [hb])
        simp [hb, hbb]
    · simp

/-- Claim C6 amended witness: the general row/column rule applied at the
example table. -/
theorem claim_C6_classification_witness :
    (analyze_content "| A | B |\n|---|---|\n| 1 | 2 |").table_rows
      = amendedTableRows "| A | B |\n|---|---|\n| 1 | 2 |"
    ∧ (analyze_content "| A | B |\n|---|---|\n| 1 | 2 |").table_cols
      = claimFirstRowCells "| A | B |\n|---|---|\n| 1 | 2 |" :=
  claim_C6_classification.2.1 "| A | B |\n|---|---|\n| 1 | 2 |"
    (by decide) (by decide)

/-- Claim C7: the layout mode decision agrees everywhere with the claim's
four-way rule (title with no content is TITLE_ONLY with or without subtitle;
content without title is CONTENT_ONLY; title + subtitle + small content is
TITLE_CENTERED; everything else is TITLE_CONTENT), and the title + subtitle +
10-row-table example yields TITLE_CONTENT despite having fewer than 300
characters. -/
theorem claim_C7_layout_mode :
    (∀ s : Slide, detect_layout_mode s = claimLayoutMode s)
    ∧ detect_layout_mode tenRowTableSlide = .TITLE_CONTENT
    ∧ (pyStrip tenRowTableSlide.content).length < 300 := by
  refine ⟨?_, by decide, by decide⟩
  intro s
  unfold detect_layout_mode claimLayoutMode
  by_cases ht : (s.title != "") = true <;>
    by_cases hc : (s.content != "" || s.hasCustomBuild) = true <;>
      by_cases hs : (s.subtitle != "") = true <;>
        simp [ht, hc, hs]

/-! ## SafeExpressionEvaluator (theme/evaluator.py)

Python numbers flow through the evaluator as floats (`_parse_factor` casts
every operand with `float(...)`, line 237).  They are modeled as exact
fractions with an explicit integer numerator and natural denominator: all
constants and claim inputs are small decimals, where float arithmetic is
exact, and all comparisons the code performs (`== 0`, `.is_integer()`) are
exact tests.  Fractions are not normalized; the code never compares two
computed numbers for equality, so normalization is unobservable.
-/

/-- Exact-fraction model of a Python float.  The denominator is positive in
every value the evaluator constructs. -/
structure PyNum where
  num : Int
  den : Nat
  deriving DecidableEq, Repr

/-- Injection of a Python int used where the code writes `float(value)`. -/
def PyNum.ofInt (n : Int) : PyNum := ⟨n, 1⟩

def PyNum.add (a b : PyNum) : PyNum := ⟨a.num * b.den + b.num * a.den, a.den * b.den⟩

def PyNum.sub (a b : PyNum) : PyNum := ⟨a.num * b.den - b.num * a.den, a.den * b.den⟩

def PyNum.mul (a b : PyNum) : PyNum := ⟨a.num * b.num, a.den * b.den⟩

def PyNum.neg (a : PyNum) : PyNum := ⟨-a.num, a.den⟩

/-- The `right == 0` test guarding division and modulo. -/
def PyNum.isZero (a : PyNum) : Bool := a.num == 0

/-- Division; only reached when the divisor is nonzero.  The divisor's sign
moves to the numerator so the denominator stays positive. -/
def PyNum.div (a b : PyNum) : PyNum :=
  if b.num < 0 then ⟨-(a.num * b.den), a.den * b.num.natAbs⟩
  else ⟨a.num * b.den, a.den * b.num.natAbs⟩

/-- Mathematical floor, used to express Python float `%`. -/
def PyNum.floorVal (a : PyNum) : Int := Int.fdiv a.num a.den

/-- Python float modulo: `a % b = a - b * floor(a / b)`; only reached when
the divisor is nonzero. -/
def PyNum.pymod (a b : PyNum) : PyNum :=
  PyNum.sub a (PyNum.mul b ⟨(PyNum.div a b).floorVal, 1⟩)

/-- Python `float.is_integer()`. -/
def PyNum.isInteger (a : PyNum) : Bool := a.num % (a.den : Int) == 0

/-- Python `int(result)`; only used on whole-valued results, where every
integer-division convention agrees. -/
def PyNum.toInt (a : PyNum) : Int := a.num / (a.den : Int)

/-- Values a variable table can hold.  The evaluator only ever applies
`str(...)` to them and, for strings, re-substitutes; other Python types
(lists, dicts) never appear in theme variable tables consumed by
expressions. -/
inductive PyVal where
  | int (n : Int)
  | str (s : String)
  deriving DecidableEq, Repr

/-- Python `str(value)`. -/
def PyVal.toStr : PyVal → String
  | .int n => toString n
  | .str s => s

/-- First-match lookup in a variable table (Python dict access). -/
def lookupVar (vars : List (String × PyVal)) (name : String) : Option PyVal :=
  match vars.find? (fun p => p.1 == name) with
  | some p => some p.2
  | none => none

/-- ExpressionError: one constructor per `raise` site of evaluator.py, plus
`depthExceeded` for Python's RecursionError on unboundedly nested variable
values and `outOfFuel` for the parser's fuel (unreachable from the
tokenizer's output, which every claim instance goes through). -/
inductive ExprErr where
  | unknownVar (name : String)
  | divByZero
  | modByZero
  | unexpectedChar (c : Char)
  | unexpectedToken
  | expectedToken
  | depthExceeded
  | outOfFuel
  deriving DecidableEq, Repr

/-- First match of `VARIABLE_PATTERN = \$\{([\w_]+)\}` in a character list:
returns the text before the match, the captured name, and the text after. -/
def findVarMatch : List Char → Option (List Char × List Char × List Char)
  | [] => none
  | '$' :: '{' :: rest =>
    (let nm := rest.takeWhile isWordChar
     let rest2 := rest.dropWhile isWordChar
     if !nm.isEmpty && (rest2.head? == some '}') then some ([], nm, rest2.tail)
     else (findVarMatch ('{' :: rest)).map fun p => ('$' :: p.1, p.2.1, p.2.2))
  | c :: rest => (findVarMatch rest).map fun p => (c :: p.1, p.2.1, p.2.2)

/-- `_substitute_variables` (evaluator.py lines 82-98): replace every
`${var}` match left to right; an unknown variable raises; a string value
containing `${` is substituted recursively.  The fuel bounds the recursion
(Python's own recursion limit plays the same role for cyclic variable
values); `evaluate` supplies `length + 1`, enough for every non-nested
expression since each match consumes at least four characters. -/
def substVars (vars : List (String × PyVal)) : Nat → List Char → Except ExprErr (List Char)
  | 0, _ => .error .depthExceeded
  | fuel + 1, s =>
    match findVarMatch s with
    | none => .ok s
    | some (pre, name, tail) =>
      match lookupVar vars name.asString with
      | none => .error (.unknownVar name.asString)
      | some v => do
        let rep ← match v with
          | .str sv =>
            if strHas sv "$\x7b" then substVars vars fuel sv.toList
            else .ok sv.toList
          | .int n => .ok (toString n).toList
        let rest ← substVars vars fuel tail
        .ok (pre ++ rep ++ rest)

/-- Characters of the purely-numeric check `^[\d\s+\-*/%().]+$`. -/
def isNumericChar (c : Char) : Bool :=
  c.isDigit || isPySpace c || c == '+' || c == '-' || c == '*' || c == '/' ||
  c == '%' || c == '(' || c == ')' || c == '.'

/-- List-level strip, used where the code strips before scanning. -/
def stripChars (s : List Char) : List Char :=
  ((s.dropWhile isPySpace).reverse.dropWhile isPySpace).reverse

/-- `_is_numeric_expression` (evaluator.py lines 100-110). -/
def isNumericExpression (s : List Char) : Bool :=
  let e := stripChars s
  !e.isEmpty && e.all isNumericChar

/-- Token stream elements (evaluator.py `Token`); the position field only
feeds error messages and the STRING kind is never produced. -/
inductive Token where
  | num (v : PyNum)
  | op (c : Char)
  | lparen
  | rparen
  | eof
  deriving DecidableEq, Repr

/-- Digit run to a natural number. -/
def digitsToNat (ds : List Char) : Nat :=
  ds.foldl (fun a c => a * 10 + (c.toNat - '0'.toNat)) 0

/-- `NUMBER_PATTERN = -?\d+\.?\d*` matched at the current position (the
tokenizer only tries it when it is guaranteed to succeed): returns the
numeric value and the rest of the input. -/
def scanNumber (s : List Char) : PyNum × List Char :=
  let (neg, s1) := match s with
    | '-' :: t => (true, t)
    | _ => (false, s)
  let ds := s1.takeWhile Char.isDigit
  let r1 := s1.dropWhile Char.isDigit
  match r1 with
  | '.' :: r2 =>
    let fs := r2.takeWhile Char.isDigit
    let den := 10 ^ fs.length
    let n : Int := (digitsToNat ds * den + digitsToNat fs : Nat)
    (⟨if neg then -n else n, den⟩, r2.dropWhile Char.isDigit)
  | _ =>
    let n : Int := (digitsToNat ds : Nat)
    (⟨if neg then -n else n, 1⟩, r1)

/-- Guard for treating `'-'` as the start of a negative number literal:
the next character is a digit and the previous token (if any) is an
operator or a left parenthesis (evaluator.py lines 152-153). -/
def negStartsNumber (t : List Char) (acc : List Token) : Bool :=
  (match t with
   | d :: _ => d.isDigit
   | [] => false) &&
  (match acc.getLast? with
   | none => true
   | some (.op _) => true
   | some .lparen => true
   | _ => false)

/-- `_tokenize` (evaluator.py lines 133-181): single left-to-right scan;
every step consumes at least one character, so fuel `length + 1` never runs
out.  An EOF token is appended at the end. -/
def tokenizeF : Nat → List Char → List Token → Except ExprErr (List Token)
  | 0, _, _ => .error .outOfFuel
  | _ + 1, [], acc => .ok (acc ++ [Token.eof])
  | fuel + 1, c :: t, acc =>
    if isPySpace c then tokenizeF fuel t acc
    else if c.isDigit || (c == '-' && negStartsNumber t acc) then
      let (v, rest) := scanNumber (c :: t)
      tokenizeF fuel rest (acc ++ [Token.num v])
    else if c == '+' || c == '-' || c == '*' || c == '/' || c == '%' then
      tokenizeF fuel t (acc ++ [Token.op c])
    else if c == '(' then tokenizeF fuel t (acc ++ [Token.lparen])
    else if c == ')' then tokenizeF fuel t (acc ++ [Token.rparen])
    else .error (.unexpectedChar c)

/-- Tokenizer entry point: strips the input first (evaluator.py line 141). -/
def tokenize (s : List Char) : Except ExprErr (List Token) :=
  let e := stripChars s
  tokenizeF (e.length + 1) e []

mutual

/-- `_parse_expression` (lowest precedence `+ -`). -/
def parseExpr : Nat → List Token → Except ExprErr (PyNum × List Token)
  | 0, _ => .error .outOfFuel
  | fuel + 1, ts => do
    let (l, ts1) ← parseTerm fuel ts
    parseExprLoop fuel l ts1

/-- The `while` loop of `_parse_expression`. -/
def parseExprLoop : Nat → PyNum → List Token → Except ExprErr (PyNum × List Token)
  | 0, _, _ => .error .outOfFuel
  | fuel + 1, l, ts =>
    match ts with
    | .op '+' :: rest => do
      let (r, ts2) ← parseTerm fuel rest
      parseExprLoop fuel (l.add r) ts2
    | .op '-' :: rest => do
      let (r, ts2) ← parseTerm fuel rest
      parseExprLoop fuel (l.sub r) ts2
    | _ => .ok (l, ts)

/-- `_parse_term` (higher precedence `* / %`, with the zero checks). -/
def parseTerm : Nat → List Token → Except ExprErr (PyNum × List Token)
  | 0, _ => .error .outOfFuel
  | fuel + 1, ts => do
    let (l, ts1) ← parseFactor fuel ts
    parseTermLoop fuel l ts1

/-- The `while` loop of `_parse_term`. -/
def parseTermLoop : Nat → PyNum → List Token → Except ExprErr (PyNum × List Token)
  | 0, _, _ => .error .outOfFuel
  | fuel + 1, l, ts =>
    match ts with
    | .op '*' :: rest => do
      let (r, ts2) ← parseFactor fuel rest
      parseTermLoop fuel (l.mul r) ts2
    | .op '/' :: rest => do
      let (r, ts2) ← parseFactor fuel rest
      if r.isZero then .error .divByZero
      else parseTermLoop fuel (l.div r) ts2
    | .op '%' :: rest => do
      let (r, ts2) ← parseFactor fuel rest
      if r.isZero then .error .modByZero
      else parseTermLoop fuel (l.pymod r) ts2
    | _ => .ok (l, ts)

/-- `_parse_factor` (numbers, parentheses, unary minus). -/
def parseFactor : Nat → List Token → Except ExprErr (PyNum × List Token)
  | 0, _ => .error .outOfFuel
  | fuel + 1, ts =>
    match ts with
    | .num v :: rest => .ok (v, rest)
    | .lparen :: rest => do
      let (v, ts2) ← parseExpr fuel rest
      match ts2 with
      | .rparen :: ts3 => .ok (v, ts3)
      | _ => .error .expectedToken
    | .op '-' :: rest => do
      let (v, ts2) ← parseFactor fuel rest
      .ok (v.neg, ts2)
    | _ => .error .unexpectedToken

end

/-- Results of `evaluate`: an int (whole-valued float normalized), a float,
or an interpolated string. -/
inductive EvalResult where
  | int (n : Int)
  | num (v : PyNum)
  | str (s : String)
  deriving DecidableEq, Repr

/-- `_evaluate_numeric` (evaluator.py lines 112-131): tokenize, parse, check
that everything was consumed, and normalize whole-valued results to ints.
The parser fuel is a generous linear bound on the token count; the recursion
consumes a token at every other level, so it never runs out on tokenizer
output. -/
def evaluateNumeric (s : List Char) : Except ExprErr EvalResult := do
  let tokens ← tokenize s
  let (result, rest) ← parseExpr ((tokens.length + 1) * 4) tokens
  match rest with
  | .eof :: _ =>
    if result.isInteger then .ok (.int result.toInt) else .ok (.num result)
  | _ => .error .unexpectedToken

/-- `evaluate` (evaluator.py lines 62-80): empty input is returned as-is;
variables are substituted; purely numeric results are computed, anything
else is returned as the interpolated string. -/
def evaluate (vars : List (String × PyVal)) (expression : String) :
    Except ExprErr EvalResult :=
  if expression = "" then .ok (.str expression)
  else do
    let resolved ← substVars vars (expression.length + 1) expression.toList
    if isNumericExpression resolved then evaluateNumeric resolved
    else .ok (.str resolved.asString)

instance {ε α : Type} [DecidableEq ε] [DecidableEq α] :
    DecidableEq (Except ε α) := fun a b =>
  match a, b with
  | .ok x, .ok y =>
    match decEq x y with
    | isTrue h => isTrue (congrArg Except.ok h)
    | isFalse h => isFalse (fun he => h (Except.ok.inj he))
  | .error x, .error y =>
    match decEq x y with
    | isTrue h => isTrue (congrArg Except.error h)
    | isFalse h => isFalse (fun he => h (Except.error.inj he))
  | .ok _, .error _ => isFalse (fun he => Except.noConfusion he)
  | .error _, .ok _ => isFalse (fun he => Except.noConfusion he)

/-! ## Claim C4: lemmas about variable substitution and the claim theorem -/

theorem asString_toList (s : String) : s.toList.asString = s := rfl

theorem toList_eq_nil_iff (s : String) : s.toList = [] ↔ s = "" := by
  constructor
  · intro h
    have h2 := congrArg List.asString h
    rwa [asString_toList] at h2
  · intro h
    rw [h]
    rfl

theorem toList_append (a b : String) : (a ++ b).toList = a.toList ++ b.toList := rfl

theorem takeWhile_append_all (p : Char → Bool) (l r : List Char)
    (hl : ∀ x ∈ l, p x = true) :
    (l ++ r).takeWhile p = l ++ r.takeWhile p := by
  induction l with
  | nil => simp
  | cons c t ih =>
    have hc := hl c (by simp)
    rw [List.cons_append, List.takeWhile_cons, hc]
    simp only [if_pos]
    rw [ih (fun x hx => hl x (by simp [hx]))]
    rfl

theorem dropWhile_append_all (p : Char → Bool) (l r : List Char)
    (hl : ∀ x ∈ l, p x = true) :
    (l ++ r).dropWhile p = r.dropWhile p := by
  induction l with
  | nil => simp
  | cons c t ih =>
    have hc := hl c (by simp)
    rw [List.cons_append, List.dropWhile_cons, hc]
    simp only [if_pos]
    exact ih (fun x hx => hl x (by simp [hx]))

theorem findVarMatch_exact (name : List Char) (h1 : name ≠ [])
    (h2 : ∀ x ∈ name, isWordChar x = true) :
    findVarMatch ('$' :: '{' :: (name ++ ['}'])) = some ([], name, []) := by
  have ht : (name ++ ['}']).takeWhile isWordChar = name := by
    rw [takeWhile_append_all _ _ _ h2]
    simp [List.takeWhile, isWordChar]
  have hd : (name ++ ['}']).dropWhile isWordChar = ['}'] := by
    rw [dropWhile_append_all _ _ _ h2]
    simp [List.dropWhile, isWordChar]
  simp only [findVarMatch]
  rw [ht, hd]
  cases name with
  | nil => exact absurd rfl h1
  | cons c t => simp

/-- Claim C4: the evaluator applies standard precedence (the `3 + 4 * 2`
variables example gives 11, a parenthesized example gives the same, and
unary minus binds tighter than `*`); referencing any variable absent from
the table raises Unknown variable; division and modulo by zero raise; and
whole-valued results are normalized to integers (`7/2 + 3/2` gives the
integer 5). -/
theorem claim_C4_evaluator :
    evaluate [("a", PyVal.int 3), ("b", PyVal.int 4)] "${a} + ${b} * 2"
      = .ok (.int 11)
    ∧ (∀ (vars : List (String × PyVal)) (name : String),
        lookupVar vars name = none → name ≠ "" →
        name.toList.all isWordChar = true →
        evaluate vars ("$\x7b" ++ name ++ "\x7d") = .error (.unknownVar name))
    ∧ evaluate [("x", PyVal.int 5)] "${x}/0" = .error .divByZero
    ∧ evaluate [("x", PyVal.int 5)] "${x}%0" = .error .modByZero
    ∧ evaluate [] "7/2 + 3/2" = .ok (.int 5)
    ∧ evaluate [] "2 + 3 * (4 - 1)" = .ok (.int 11)
    ∧ evaluate [] "-2 * 3 + 10" = .ok (.int 4) := by
  refine ⟨by decide, ?_, by decide, by decide, by decide, by decide, by decide⟩
  intro vars name hlk hne hall
  have hs : ("$\x7b" ++ name ++ "\x7d").toList = '$' :: '{' :: (name.toList ++ ['}']) := by
    rw [toList_append, toList_append]
    simp
  have hne' : ("$\x7b" ++ name ++ "\x7d") ≠ "" := by
    intro he
    have h2 := congrArg String.toList he
    rw [hs] at h2
    simp at h2
  have hfind := findVarMatch_exact name.toList
    (fun h => hne ((toList_eq_nil_iff name).mp h))
    (fun x hx => List.all_eq_true.mp hall x hx)
  unfold evaluate
  rw [if_neg hne']
  show (substVars vars (("$\x7b" ++ name ++ "\x7d").length + 1)
      ("$\x7b" ++ name ++ "\x7d").toList).bind _ = _
  rw [hs]
  unfold substVars
  rw [hfind]
  simp only [asString_toList, hlk]
  rfl

/-- Claim C4 witness: the unknown-variable rule applied at the empty table
and the name `q`. -/
theorem claim_C4_evaluator_witness :
    evaluate [] ("$\x7b" ++ "q" ++ "\x7d") = .error (.unknownVar "q") :=
  claim_C4_evaluator.2.1 [] "q" rfl (by decide) (by decide)

/-! ## ThemeContext (theme/context.py)

Override and theme values are opaque to the resolution logic (the code only
ever tests them against `None`), so they are modeled as strings; a stored
Python `None` is `Option.none`.  Python dicts become association lists with
first-match lookup and replace-or-append assignment, matching dict key
uniqueness and insertion order.  `ThemeContext.get` only invokes
`theme.get(key)` on each stacked theme, so a `Theme` is modeled by that
resolution function; the internals of `Theme.get` (variables, computed
values, layouts) are outside these claims.
-/

/-- First-match lookup in an association list (Python `key in d` / `d[key]`). -/
def dictFind {α : Type} (d : List (String × α)) (k : String) : Option α :=
  match d.find? (fun p => p.1 == k) with
  | some p => some p.2
  | none => none

/-- Python dict assignment `d[k] = v`: replace the first entry for `k`,
keeping its position, or append a new entry. -/
def dictSet {α : Type} (d : List (String × α)) (k : String) (v : α) :
    List (String × α) :=
  match d with
  | [] => [(k, v)]
  | (k2, v2) :: t => if k2 == k then (k, v) :: t else (k2, v2) :: dictSet t k v

/-- ThemeOverrides (context.py lines 9-84): palette for plain keys,
components for dotted keys.  Stored values may be Python `None`. -/
structure ThemeOverrides where
  palette : List (String × Option String)
  components : List (String × Option String)
  deriving Repr

/-- `ThemeOverrides.set` (lines 38-53): keys containing `'.'` route to
components, others to palette. -/
def ThemeOverrides.set (o : ThemeOverrides) (key : String) (v : Option String) :
    ThemeOverrides :=
  if strHas key "." then { o with components := dictSet o.components key v }
  else { o with palette := dictSet o.palette key v }

/-- `ThemeOverrides.get` (lines 55-63): `dict.get` returns `None` both for a
missing key and for a stored `None`. -/
def ThemeOverrides.get (o : ThemeOverrides) (key : String) : Option String :=
  if strHas key "." then (dictFind o.components key).join
  else (dictFind o.palette key).join

/-- `ThemeOverrides.clear` (lines 65-69). -/
def ThemeOverrides.clear (_ : ThemeOverrides) : ThemeOverrides := ⟨[], []⟩

/-- `ThemeOverrides.merge` (lines 27-36): `{**self.x, **other.x}` — start
from self and assign every entry of other in order. -/
def ThemeOverrides.merge (o other : ThemeOverrides) : ThemeOverrides :=
  ⟨other.palette.foldl (fun acc p => dictSet acc p.1 p.2) o.palette,
   other.components.foldl (fun acc p => dictSet acc p.1 p.2) o.components⟩

/-- A stacked theme, modeled by its `Theme.get` resolution function. -/
structure Theme where
  get : String → Option String

/-- ThemeContext (context.py lines 87-109).  The resolution cache is keyed
in the code by `f'{key}:{id(slide_overrides)}:{id(deck_overrides)}'`; the
identity components are omitted here because every operation that mutates or
replaces an override object also clears the cache (context.py lines 151,
170, 181, 187, 204, 214, 220), so entries under a stale identity are never
consulted.  Only non-`None` resolved values are ever cached. -/
structure ThemeContext where
  themes : List Theme
  deck_overrides : ThemeOverrides
  slide_overrides : ThemeOverrides
  resolvedCache : List (String × String)

/-- Cache-free resolution, exactly as claim C1 phrases the layering: the
slide override when non-None, else the deck override when non-None, else
the first theme in list order whose `get` is non-None. -/
def resolveNoCache (ctx : ThemeContext) (key : String) : Option String :=
  match ctx.slide_overrides.get key with
  | some v => some v
  | none =>
    match ctx.deck_overrides.get key with
    | some v => some v
    | none => ctx.themes.findSome? (fun t => t.get key)

/-- `ThemeContext.get` (context.py lines 227-264): consult the cache, then
slide overrides, deck overrides, and each theme in order, caching any
non-None hit; fall back to `default`.  Returns the value and the updated
context. -/
def ThemeContext.get (ctx : ThemeContext) (key : String) (dflt : Option String) :
    Option String × ThemeContext :=
  match dictFind ctx.resolvedCache key with
  | some v => (some v, ctx)
  | none =>
    match ctx.slide_overrides.get key with
    | some v =>
      (some v, { ctx with resolvedCache := dictSet ctx.resolvedCache key v })
    | none =>
      match ctx.deck_overrides.get key with
      | some v =>
        (some v, { ctx with resolvedCache := dictSet ctx.resolvedCache key v })
      | none =>
        match ctx.themes.findSome? (fun t => t.get key) with
        | some v =>
          (some v, { ctx with resolvedCache := dictSet ctx.resolvedCache key v })
        | none => (dflt, ctx)

/-- `ThemeContext.override` (lines 158-171). -/
def ThemeContext.override (ctx : ThemeContext) (key : String) (v : Option String) :
    ThemeContext :=
  { ctx with deck_overrides := ctx.deck_overrides.set key v, resolvedCache := [] }

/-- `ThemeContext.push_slide_override` (lines 194-205). -/
def ThemeContext.push_slide_override (ctx : ThemeContext) (key : String)
    (v : Option String) : ThemeContext :=
  { ctx with slide_overrides := ctx.slide_overrides.set key v, resolvedCache := [] }

/-- `ThemeContext.push_slide_overrides` (lines 207-215). -/
def ThemeContext.push_slide_overrides (ctx : ThemeContext) (o : ThemeOverrides) :
    ThemeContext :=
  { ctx with slide_overrides := ctx.slide_overrides.merge o, resolvedCache := [] }

/-- `ThemeContext.clear_slide_overrides` (lines 217-221). -/
def ThemeContext.clear_slide_overrides (ctx : ThemeContext) : ThemeContext :=
  { ctx with slide_overrides := ctx.slide_overrides.clear, resolvedCache := [] }

/-- `ThemeContext.clear_deck_overrides` (lines 184-188). -/
def ThemeContext.clear_deck_overrides (ctx : ThemeContext) : ThemeContext :=
  { ctx with deck_overrides := ctx.deck_overrides.clear, resolvedCache := [] }

/-- `ThemeContext.add_theme` (lines 142-152). -/
def ThemeContext.add_theme (ctx : ThemeContext) (t : Theme) : ThemeContext :=
  { ctx with themes := ctx.themes ++ [t], resolvedCache := [] }

/-- Cache consistency: every cached entry agrees with cache-free resolution.
It holds for a fresh context and is preserved by `get` and re-established
(trivially) by every mutating operation, all of which clear the cache. -/
def CacheOk (ctx : ThemeContext) : Prop :=
  ∀ k v, dictFind ctx.resolvedCache k = some v → resolveNoCache ctx k = some v

theorem dictFind_set {α : Type} (d : List (String × α)) (k : String) (v : α) :
    dictFind (dictSet d k v) k = some v := by
  induction d with
  | nil => simp [dictSet, dictFind, List.find?]
  | cons p t ih =>
    by_cases h : p.1 == k
    · simp [dictSet, h, dictFind, List.find?]
    · simp only [dictSet, dictFind, List.find?] at ih ⊢
      rw [if_neg (by simpa using h)]
      simpa [h] using ih

theorem dictFind_set_ne {α : Type} (d : List (String × α)) (k k2 : String)
    (v : α) (h : k2 ≠ k) : dictFind (dictSet d k v) k2 = dictFind d k2 := by
  have hk : (k == k2) = false := beq_eq_false_iff_ne.mpr (Ne.symm h)
  induction d with
  | nil => simp [dictSet, dictFind, List.find?, hk]
  | cons p t ih =>
    by_cases h2 : p.1 == k
    · simp only [dictSet, h2, if_pos]
      have hp : (p.1 == k2) = false := by
        have := eq_of_beq h2
        simp [this, Ne.symm h]
      simp [dictFind, List.find?, hp, hk]
    · simp only [dictSet, h2, Bool.false_eq_true, if_false]
      simp only [dictFind, List.find?] at ih ⊢
      cases h3 : p.1 == k2
      · simpa [h3] using ih
      · simp [h3]

theorem overrides_get_set (o : ThemeOverrides) (key : String) (v : Option String) :
    (o.set key v).get key = v := by
  unfold ThemeOverrides.set ThemeOverrides.get
  by_cases h : strHas key "." = true
  · simp [h, dictFind_set]
  · simp only [Bool.not_eq_true] at h
    simp [h, dictFind_set]

theorem overrides_get_clear (o : ThemeOverrides) (key : String) :
    (o.clear).get key = none := by
  unfold ThemeOverrides.clear ThemeOverrides.get
  split <;> simp [dictFind]

/-- Claim C1: with a consistent cache, `get` returns the layered resolution
(slide override if non-None, else deck override, else first theme hit, else
the default), and in the three-layer scenario it returns the slide value,
then the deck value after `clear_slide_overrides`, then the first theme's
value after also clearing deck overrides. -/
theorem claim_C1_resolution (ctx : ThemeContext) (key : String)
    (dflt : Option String) (v1 v2 v3 : String) (t : Theme) (rest : List Theme)
    (hcache : CacheOk ctx) :
    ((ctx.get key dflt).1
      = match resolveNoCache ctx key with
        | some v => some v
        | none => dflt)
    ∧ (ctx.slide_overrides.get key = some v1 →
       ctx.deck_overrides.get key = some v2 →
       ctx.themes = t :: rest →
       t.get key = some v3 →
       (ctx.get key dflt).1 = some v1
       ∧ ((ctx.clear_slide_overrides).get key dflt).1 = some v2
       ∧ (((ctx.clear_slide_overrides).clear_deck_overrides).get key dflt).1
         = some v3) := by
  have hgen : ∀ (c : ThemeContext), CacheOk c →
      (c.get key dflt).1
        = match resolveNoCache c key with
          | some v => some v
          | none => dflt := by
    intro c hc
    unfold ThemeContext.get
    cases hcl : dictFind c.resolvedCache key with
    | some v =>
      have := hc key v hcl
      rw [this]
    | none =>
      unfold resolveNoCache
      cases hs : c.slide_overrides.get key with
      | some v => simp
      | none =>
        cases hd : c.deck_overrides.get key with
        | some v => simp
        | none =>
          cases hth : c.themes.findSome? (fun t => t.get key) with
          | some v => simp
          | none => simp
  refine ⟨hgen ctx hcache, ?_⟩
  intro h1 h2 h3 h4
  have hok1 : CacheOk ctx.clear_slide_overrides := by
    intro k v hf
    simp [ThemeContext.clear_slide_overrides, dictFind, List.find?] at hf
  have hok2 : CacheOk ctx.clear_slide_overrides.clear_deck_overrides := by
    intro k v hf
    simp [ThemeContext.clear_deck_overrides, dictFind, List.find?] at hf
  refine ⟨?_, ?_, ?_⟩
  · rw [hgen ctx hcache]
    unfold resolveNoCache
    rw [h1]
  · rw [hgen _ hok1]
    unfold resolveNoCache
    show (match
        match (ctx.slide_overrides.clear).get key with
        | some v => some v
        | none =>
          match ctx.deck_overrides.get key with
          | some v => some v
          | none => ctx.themes.findSome? (fun t => t.get key) with
      | some v => some v
      | none => dflt) = some v2
    rw [overrides_get_clear, h2]
  · rw [hgen _ hok2]
    unfold resolveNoCache
    show (match
        match (ctx.slide_overrides.clear).get key with
        | some v => some v
        | none =>
          match (ctx.deck_overrides.clear).get key with
          | some v => some v
          | none => ctx.themes.findSome? (fun t => t.get key) with
      | some v => some v
      | none => dflt) = some v3
    rw [overrides_get_clear, overrides_get_clear, h3]
    simp [List.findSome?, h4]

/-- Claim C1 witness: a concrete three-layer context with an empty cache. -/
theorem claim_C1_resolution_witness :
    (({ themes := [⟨fun k => if k = "primary" then some "theme-blue" else none⟩],
        deck_overrides := ⟨[("primary", some "deck-red")], []⟩,
        slide_overrides := ⟨[("primary", some "slide-green")], []⟩,
        resolvedCache := [] } : ThemeContext).get "primary" none).1
      = some "slide-green" := by
  have h := (claim_C1_resolution
    { themes := [⟨fun k => if k = "primary" then some "theme-blue" else none⟩],
      deck_overrides := ⟨[("primary", some "deck-red")], []⟩,
      slide_overrides := ⟨[("primary", some "slide-green")], []⟩,
      resolvedCache := [] }
    "primary" none "slide-green" "deck-red" "theme-blue"
    ⟨fun k => if k = "primary" then some "theme-blue" else none⟩ []
    (fun k v hf => by simp [dictFind, List.find?] at hf)).2
    (by simp [ThemeOverrides.get, dictFind, List.find?, strHas, hasInfix])
    (by simp [ThemeOverrides.get, dictFind, List.find?, strHas, hasInfix])
    rfl
    (by simp)
  exact h.1

/-- Claim C10: an override stored as `None` is skipped at resolution time —
after `push_slide_override key None` resolution of `key` falls through to
the deck overrides, the theme list, then the default; after
`override key None` (a deck override) it falls through past the deck layer
to the slide overrides, the theme list, then the default. -/
theorem claim_C10_none_override (ctx : ThemeContext) (key : String)
    (dflt : Option String) :
    ((ctx.push_slide_override key none).get key dflt).1
      = (match ctx.deck_overrides.get key with
         | some v => some v
         | none =>
           match ctx.themes.findSome? (fun t => t.get key) with
           | some v => some v
           | none => dflt)
    ∧ ((ctx.override key none).get key dflt).1
      = (match ctx.slide_overrides.get key with
         | some v => some v
         | none =>
           match ctx.themes.findSome? (fun t => t.get key) with
           | some v => some v
           | none => dflt) := by
  constructor
  · show ((({ ctx with
        slide_overrides := ctx.slide_overrides.set key none,
        resolvedCache := [] } : ThemeContext)).get key dflt).1 = _
    unfold ThemeContext.get
    simp only [dictFind, List.find?]
    rw [show ({ ctx with
        slide_overrides := ctx.slide_overrides.set key none,
        resolvedCache := [] } : ThemeContext).slide_overrides.get key
      = none from overrides_get_set ctx.slide_overrides key none]
    cases hd : ctx.deck_overrides.get key with
    | some v => simp
    | none =>
      cases hth : ctx.themes.findSome? (fun t => t.get key) with
      | some v => simp
      | none => simp
  · show ((({ ctx with
        deck_overrides := ctx.deck_overrides.set key none,
        resolvedCache := [] } : ThemeContext)).get key dflt).1 = _
    unfold ThemeContext.get
    simp only [dictFind, List.find?]
    cases hs : ctx.slide_overrides.get key with
    | some v => simp
    | none =>
      rw [show ({ ctx with
          deck_overrides := ctx.deck_overrides.set key none,
          resolvedCache := [] } : ThemeContext).deck_overrides.get key
        = none from overrides_get_set ctx.deck_overrides key none]
      cases hth : ctx.themes.findSome? (fun t => t.get key) with
      | some v => simp
      | none => simp

/-! ## ThemeLoader (theme/loader.py, with utils/paths.py)

The filesystem is a finite map from absolute path strings to parsed JSON
values (`json.load` of the file).  Paths are plain strings; resolved paths
are formed by joining a base directory and a safe filename with `'/'`.
`is_safe_filename` rejects path separators and `'.'`/`'..'`, so `resolve()`
normalization is the identity on every path the loader builds (symlinks are
outside the model), and the `relative_to(base_dir)` containment check always
passes on such a join.
-/

/-- Parsed JSON values.  Numbers only occur as leaf data in the claims and
are modeled as integers. -/
inductive Json where
  | null
  | bool (b : Bool)
  | num (n : Int)
  | str (s : String)
  | arr (xs : List Json)
  | obj (fields : List (String × Json))

mutual

/-- Nesting depth of a JSON value (an object or array nests one deeper than
its members; leaves have depth 0).  Used only to seed the deep-merge fuel. -/
def jdepth : Json → Nat
  | .obj fs => 1 + jdepthFields fs
  | .arr xs => 1 + jdepthArr xs
  | _ => 0

def jdepthFields : List (String × Json) → Nat
  | [] => 0
  | (_, v) :: t => max (jdepth v) (jdepthFields t)

def jdepthArr : List Json → Nat
  | [] => 0
  | v :: t => max (jdepth v) (jdepthArr t)

end

/-- Python `dict.pop(k)`: drop the (unique) entry for `k`. -/
def removeKey (fs : List (String × Json)) (k : String) : List (String × Json) :=
  match fs with
  | [] => []
  | (k2, v) :: t => if k2 == k then t else (k2, v) :: removeKey t k

/-- `extends = data.pop('extends', None)` followed by the `if extends:`
truthiness test: the parent reference is a non-empty string value of the
`extends` key.  A non-string truthy `extends` would crash Python's
`reference.split(':')` and never occurs in a loadable theme; it is treated
as absent here. -/
def popExtends (j : Json) : Option String × Json :=
  match j with
  | .obj fs =>
    match dictFind fs "extends" with
    | some (.str s) =>
      (if s = "" then none else some s, .obj (removeKey fs "extends"))
    | some _ => (none, .obj (removeKey fs "extends"))
    | none => (none, .obj fs)
  | j => (none, j)

/-- Loader errors: one constructor per `raise` site of loader.py and the
`PathSecurityError` raises of paths.py reachable from it, plus `outOfFuel`
for the recursion bound (proved unreachable in claim C2). -/
inductive LoadErr where
  | circular (chain : List String)
  | depthExceeded (max : Nat)
  | fileNotFound (path : String)
  | unknownSymbol (symbol : String)
  | cannotResolveRelative (reference : String)
  | unsafeFilename (filename : String)
  | badExtension (filename : String)
  | outOfFuel
  deriving DecidableEq, Repr

/-- The regex `>\s*/` or `<\s*/` of `_check_shell_injection`. -/
def hasRedirect (r : Char) : List Char → Bool
  | [] => false
  | c :: t =>
    (c == r && ((t.dropWhile isPySpace).head? == some '/')) || hasRedirect r t

/-- The regex `\\n|\\r` (a literal backslash followed by `n` or `r`). -/
def hasBackslashNR : List Char → Bool
  | [] => false
  | [_] => false
  | a :: b :: t => (a == '\\' && (b == 'n' || b == 'r')) || hasBackslashNR (b :: t)

/-- `_check_shell_injection` (paths.py lines 81-102) as a predicate: true
when no dangerous pattern matches.  The character class `[;&|`$]` subsumes
the `$(`, `${`, `||` and `&&` patterns. -/
def shellInjectionOk (s : String) : Bool :=
  let cs := s.toList
  !(cs.any (fun c => c == ';' || c == '&' || c == '|' || c == '`' || c == '$')) &&
  !(hasRedirect '>' cs) && !(hasRedirect '<' cs) &&
  !(hasBackslashNR cs) && !(cs.any (fun c => c == Char.ofNat 0))

/-- `is_safe_filename` (paths.py lines 105-127). -/
def is_safe_filename (filename : String) : Bool :=
  filename ≠ "" &&
  !strHas filename "/" && !strHas filename "\\" &&
  filename ≠ "." && filename ≠ ".." &&
  shellInjectionOk filename

/-- Python `s.endswith(p)`. -/
def pyEndsWith (s p : String) : Bool := p.toList.isSuffixOf s.toList

/-- `Path.parent` on the slash-joined paths of this model: everything
before the final `'/'`. -/
def parentDir (p : String) : String :=
  match (splitOnChar '/' p).dropLast with
  | [] => ""
  | parts => joinSlash parts
where
  joinSlash : List String → String
    | [] => ""
    | [x] => x
    | x :: t => x ++ "/" ++ joinSlash t

/-- `resolve_theme_path` (loader.py lines 68-131): symbol references
`sym:file.json` resolve through the search-path table, bare filenames
against the current directory; the filename must be safe and end in
`.json`; the resolved path must exist. -/
def resolve_theme_path (searchPaths : List (String × String))
    (fs : List (String × Json)) (reference : String)
    (currentDir : Option String) : Except LoadErr String := do
  let (baseDir, filename) ←
    if strHas reference ":" then
      let symbol := (reference.toList.takeWhile (fun c => c != ':')).asString
      let filename := ((reference.toList.dropWhile (fun c => c != ':')).tail).asString
      match dictFind searchPaths symbol with
      | some base => Except.ok (base, filename)
      | none => Except.error (.unknownSymbol symbol)
    else
      match currentDir with
      | some d => Except.ok (d, reference)
      | none => Except.error (.cannotResolveRelative reference)
  if !is_safe_filename filename then Except.error (.unsafeFilename filename)
  else if !pyEndsWith filename ".json" then Except.error (.badExtension filename)
  else
    let resolved := baseDir ++ "/" ++ filename
    match dictFind fs resolved with
    | some _ => Except.ok resolved
    | none => Except.error (.fileNotFound resolved)

/-- `_deep_merge` (loader.py lines 195-220) over object field lists:
`result = base.copy()`, then one pass over the override's entries in order —
when both sides hold an object under the key, merge recursively, otherwise
assign the override value.  The fuel only bounds the nesting recursion; the
override nests `jdepthFields ov` deep, so the fuel supplied by
`deepMergeFields` never reaches the 0 branch (which assigns without
recursive merging). -/
def mergeEntriesD : Nat → List (String × Json) → List (String × Json) →
    List (String × Json)
  | 0, base, ov => ov.foldl (fun acc p => dictSet acc p.1 p.2) base
  | fuel + 1, base, ov =>
    ov.foldl (fun acc p =>
      match dictFind acc p.1, p.2 with
      | some (Json.obj bv), Json.obj ovv =>
        dictSet acc p.1 (Json.obj (mergeEntriesD fuel bv ovv))
      | _, _ => dictSet acc p.1 p.2) base

/-- `_deep_merge` on two field lists. -/
def deepMergeFields (base ov : List (String × Json)) : List (String × Json) :=
  mergeEntriesD (jdepthFields ov + 1) base ov

/-- `_deep_merge` at the JSON level: the loader only ever calls it on the
dicts parsed from theme files. -/
def deepMerge : Json → Json → Json
  | .obj b, .obj o => .obj (deepMergeFields b o)
  | _, o => o

/-- `_load_with_inheritance` (loader.py lines 149-193): the stack of
in-progress absolute paths detects cycles; the depth counter enforces the
maximum inheritance depth; the parent (resolved with the child's directory
as current dir) is deep-merged under the child.  The fuel decreases on each
recursion; since the depth guard stops recursion at `depth > maxDepth`,
fuel `maxDepth + 2` (supplied by `load_theme_data`) is never exhausted —
claim C2 proves the `outOfFuel` branch unreachable. -/
def loadWithInheritance (searchPaths : List (String × String))
    (fs : List (String × Json)) (maxDepth : Nat) :
    Nat → List String → Nat → String → Except LoadErr Json
  | 0, _, _, _ => .error .outOfFuel
  | fuel + 1, stack, depth, path =>
    if path ∈ stack then .error (.circular (stack ++ [path]))
    else if depth > maxDepth then .error (.depthExceeded maxDepth)
    else
      match dictFind fs path with
      | none => .error (.fileNotFound path)
      | some data =>
        match popExtends data with
        | (some ref, data2) => do
          let parentPath ← resolve_theme_path searchPaths fs ref
            (some (parentDir path))
          let parentData ← loadWithInheritance searchPaths fs maxDepth fuel
            (stack ++ [path]) (depth + 1) parentPath
          Except.ok (deepMerge parentData data2)
        | (none, data2) => .ok data2

/-- The loader default `_max_inheritance_depth = 5` (loader.py line 34). -/
def maxInheritanceDepth : Nat := 5

/-- `load_theme_data` (loader.py lines 133-147). -/
def load_theme_data (searchPaths : List (String × String))
    (fs : List (String × Json)) (reference : String)
    (currentDir : Option String) : Except LoadErr Json := do
  let path ← resolve_theme_path searchPaths fs reference currentDir
  loadWithInheritance searchPaths fs maxInheritanceDepth
    (maxInheritanceDepth + 2) [] 0 path

/-! ## Claim C2: circular inheritance and depth limit -/

theorem except_bind_ok {ε α β : Type} (a : α) (f : α → Except ε β) :
    (Except.ok a : Except ε α) >>= f = f a := rfl

theorem except_bind_error {ε α β : Type} (e : ε) (f : α → Except ε β) :
    (Except.error e : Except ε α) >>= f = .error e := rfl

theorem resolve_no_outOfFuel (sp : List (String × String))
    (fs : List (String × Json)) (ref : String) (cd : Option String) :
    resolve_theme_path sp fs ref cd ≠ .error .outOfFuel := by
  unfold resolve_theme_path
  cases h : strHas ref ":" with
  | true =>
    simp only [h, if_pos]
    cases h2 : dictFind sp ((ref.toList.takeWhile (fun c => c != ':')).asString) with
    | some base =>
      simp only [except_bind_ok]
      split
      · simp
      · split
        · simp
        · split <;> simp
    | none =>
      simp only [except_bind_error]
      simp
  | false =>
    simp only [h, Bool.false_eq_true, if_false]
    cases cd with
    | some d =>
      simp only [except_bind_ok]
      split
      · simp
      · split
        · simp
        · split <;> simp
    | none =>
      simp only [except_bind_error]
      simp

theorem loadAux_no_outOfFuel (sp : List (String × String))
    (fs : List (String × Json)) (md : Nat) :
    ∀ (fuel : Nat) (stack : List String) (depth : Nat) (path : String),
      md + 1 - depth < fuel →
      loadWithInheritance sp fs md fuel stack depth path ≠ .error .outOfFuel := by
  intro fuel
  induction fuel with
  | zero => intro stack depth path h; omega
  | succ f ih =>
    intro stack depth path h
    unfold loadWithInheritance
    by_cases h1 : path ∈ stack
    · simp [h1]
    · rw [if_neg h1]
      by_cases h2 : depth > md
      · simp [h2]
      · rw [if_neg h2]
        cases h3 : dictFind fs path with
        | none => simp
        | some data =>
          cases h4 : popExtends data with
          | mk ext data2 =>
            cases ext with
            | none => simp [h4]
            | some ref =>
              simp only [h4]
              cases h5 : resolve_theme_path sp fs ref (some (parentDir path)) with
              | error e =>
                rw [except_bind_error]
                have := resolve_no_outOfFuel sp fs ref (some (parentDir path))
                rw [h5] at this
                simpa using this
              | ok pp =>
                rw [except_bind_ok]
                cases h6 : loadWithInheritance sp fs md f (stack ++ [path])
                    (depth + 1) pp with
                | error e =>
                  rw [except_bind_error]
                  have := ih (stack ++ [path]) (depth + 1) pp (by omega)
                  rw [h6] at this
                  simpa using this
                | ok pd =>
                  rw [except_bind_ok]
                  simp

theorem twoCycleEntry (fuel : Nat) (sp : List (String × String))
    (fs : List (String × Json)) (pa pb : String) (ja jb : Json) (ra rb : String)
    (h1 : dictFind fs pa = some ja) (h2 : dictFind fs pb = some jb)
    (he1 : (popExtends ja).1 = some rb) (he2 : (popExtends jb).1 = some ra)
    (hr1 : resolve_theme_path sp fs rb (some (parentDir pa)) = .ok pb)
    (hr2 : resolve_theme_path sp fs ra (some (parentDir pb)) = .ok pa)
    (hne : pa ≠ pb) :
    loadWithInheritance sp fs 5 (fuel + 3) [] 0 pa
      = .error (.circular [pa, pb, pa]) := by
  rcases hja : popExtends ja with ⟨e1, d1⟩
  rcases hjb : popExtends jb with ⟨e2, d2⟩
  rw [hja] at he1
  rw [hjb] at he2
  simp only at he1 he2
  subst he1
  subst he2
  show loadWithInheritance sp fs 5 ((fuel + 2) + 1) [] 0 pa = _
  unfold loadWithInheritance
  rw [if_neg (List.not_mem_nil pa), if_neg (by omega : ¬(0 : Nat) > 5), h1]
  simp only [hja, List.nil_append]
  rw [hr1, except_bind_ok]
  show (loadWithInheritance sp fs 5 ((fuel + 1) + 1) [pa] (0 + 1) pb >>= _) = _
  unfold loadWithInheritance
  rw [if_neg (by simp [Ne.symm hne]), if_neg (by omega : ¬(0 + 1 : Nat) > 5), h2]
  simp only [hjb]
  rw [hr2]
  show ((loadWithInheritance sp fs 5 (fuel + 1) (pa :: [pb]) (0 + 1 + 1) pa >>= _)
      >>= _) = _
  unfold loadWithInheritance
  rw [if_pos (List.mem_cons_self pa [pb])]
  rfl

/-- Search paths and filesystems for the concrete claim C2 scenarios. -/
def cycleSP : List (String × String) := [("t", "/th")]

/-- Two theme files extending each other. -/
def cycleFS : List (String × Json) :=
  [("/th/a.json", .obj [("extends", .str "b.json")]),
   ("/th/b.json", .obj [("extends", .str "a.json")])]

/-- An acyclic chain of depth 6 (seven files), one beyond the maximum. -/
def depthFS : List (String × Json) :=
  [("/th/a0.json", .obj [("extends", .str "a1.json")]),
   ("/th/a1.json", .obj [("extends", .str "a2.json")]),
   ("/th/a2.json", .obj [("extends", .str "a3.json")]),
   ("/th/a3.json", .obj [("extends", .str "a4.json")]),
   ("/th/a4.json", .obj [("extends", .str "a5.json")]),
   ("/th/a5.json", .obj [("extends", .str "a6.json")]),
   ("/th/a6.json", .obj [("name", .str "base")])]

/-- Claim C2: any two files whose extends references resolve to each other
make loading fail with a circular-inheritance error from either entry
point, at every recursion budget; the recursion budget is never exhausted
(the depth guard bounds recursion, so loading always terminates with a
definite result); and concretely the two-file cycle fails circular from
both entries while an acyclic chain of depth 6 exceeds the default maximum
of 5 and fails with the depth error. -/
theorem claim_C2_cycle_depth :
    (∀ (fuel : Nat) (sp : List (String × String)) (fs : List (String × Json))
       (pa pb : String) (ja jb : Json) (ra rb : String),
      dictFind fs pa = some ja → dictFind fs pb = some jb →
      (popExtends ja).1 = some rb → (popExtends jb).1 = some ra →
      resolve_theme_path sp fs rb (some (parentDir pa)) = .ok pb →
      resolve_theme_path sp fs ra (some (parentDir pb)) = .ok pa →
      pa ≠ pb →
      loadWithInheritance sp fs 5 (fuel + 3) [] 0 pa
        = .error (.circular [pa, pb, pa])
      ∧ loadWithInheritance sp fs 5 (fuel + 3) [] 0 pb
        = .error (.circular [pb, pa, pb]))
    ∧ (∀ (sp : List (String × String)) (fs : List (String × Json))
         (fuel : Nat) (stack : List String) (depth : Nat) (path : String),
        maxInheritanceDepth + 1 - depth < fuel →
        loadWithInheritance sp fs maxInheritanceDepth fuel stack depth path
          ≠ .error .outOfFuel)
    ∧ load_theme_data cycleSP cycleFS "t:a.json" none
      = .error (.circular ["/th/a.json", "/th/b.json", "/th/a.json"])
    ∧ load_theme_data cycleSP cycleFS "t:b.json" none
      = .error (.circular ["/th/b.json", "/th/a.json", "/th/b.json"])
    ∧ load_theme_data cycleSP depthFS "t:a0.json" none
      = .error (.depthExceeded 5) := by
  refine ⟨?_, ?_, rfl, rfl, rfl⟩
  · intro fuel sp fs pa pb ja jb ra rb h1 h2 he1 he2 hr1 hr2 hne
    exact ⟨twoCycleEntry fuel sp fs pa pb ja jb ra rb h1 h2 he1 he2 hr1 hr2 hne,
      twoCycleEntry fuel sp fs pb pa jb ja rb ra h2 h1 he2 he1 hr2 hr1 (Ne.symm hne)⟩
  · exact fun sp fs fuel stack depth path h =>
      loadAux_no_outOfFuel sp fs maxInheritanceDepth fuel stack depth path h

/-- Claim C2 witness: the parametric parts applied to the concrete cycle. -/
theorem claim_C2_cycle_depth_witness :
    loadWithInheritance cycleSP cycleFS 5 7 [] 0 "/th/a.json"
      = .error (.circular ["/th/a.json", "/th/b.json", "/th/a.json"])
    ∧ loadWithInheritance cycleSP cycleFS maxInheritanceDepth 7 [] 0 "/th/a.json"
      ≠ .error .outOfFuel := by
  constructor
  · exact (claim_C2_cycle_depth.1 4 cycleSP cycleFS "/th/a.json" "/th/b.json"
      (.obj [("extends", .str "b.json")]) (.obj [("extends", .str "a.json")])
      "a.json" "b.json" rfl rfl rfl rfl rfl rfl (by decide)).1
  · exact claim_C2_cycle_depth.2.1 cycleSP cycleFS 7 [] 0 "/th/a.json" (by decide)

/-! ## Claim C3: deep-merge inheritance

The claim is settled through `lookupPath`, the observation of a JSON tree at
a dotted key path, and `singletonFields`, the field list of a child theme
that overrides exactly one leaf path.
-/

/-- Whether a JSON value is an object (a Python dict). -/
def isObj : Json → Bool
  | .obj _ => true
  | _ => false

/-- Observation of a JSON tree at a key path. -/
def lookupPath : Json → List String → Option Json
  | j, [] => some j
  | .obj fs, k :: rest =>
    (match dictFind fs k with
     | some v => lookupPath v rest
     | none => none)
  | _, _ :: _ => none

/-- The field list of a theme that sets exactly the leaf path `P` to `v`. -/
def singletonFields : List String → Json → List (String × Json)
  | [], _ => []
  | [k], v => [(k, v)]
  | k :: rest, v => [(k, Json.obj (singletonFields rest v))]

/-- Every proper prefix of `P` that exists in the parent resolves to an
object (the override path descends through dicts, never through a leaf). -/
def prefixesObjOk (pf : List (String × Json)) (P : List String) : Bool :=
  (List.range P.length).all fun i =>
    match lookupPath (Json.obj pf) (P.take i) with
    | some j => isObj j
    | none => true

/-- The parent's value at `P` itself, if any, is a leaf (the child overrides
a leaf key, not a whole sub-dict). -/
def leafOrAbsentB (pf : List (String × Json)) (P : List String) : Bool :=
  match lookupPath (Json.obj pf) P with
  | some j => !isObj j
  | none => true

theorem lookupPath_nil (j : Json) : lookupPath j [] = some j := by
  cases j <;> rfl

theorem lookupPath_nonobj (j : Json) (h : isObj j = false) (q : String)
    (qs : List String) : lookupPath j (q :: qs) = none := by
  cases j <;> first | rfl | simp [isObj] at h

theorem lookupPath_cons (pf : List (String × Json)) (k : String)
    (j : Json) (h : dictFind pf k = some j) (X : List String) :
    lookupPath (Json.obj pf) (k :: X) = lookupPath j X := by
  simp [lookupPath, h]

theorem lookupPath_cons_none (pf : List (String × Json)) (k : String)
    (h : dictFind pf k = none) (X : List String) :
    lookupPath (Json.obj pf) (k :: X) = none := by
  simp [lookupPath, h]

theorem lookup_singleton (v : Json) :
    ∀ (P : List String), P ≠ [] →
      lookupPath (Json.obj (singletonFields P v)) P = some v := by
  intro P
  induction P with
  | nil => intro h; exact absurd rfl h
  | cons k rest ih =>
    intro _
    cases rest with
    | nil => simp [singletonFields, lookupPath, dictFind, List.find?]
    | cons k2 r2 =>
      rw [show singletonFields (k :: k2 :: r2) v
        = [(k, Json.obj (singletonFields (k2 :: r2) v))] from rfl]
      rw [lookupPath_cons [(k, Json.obj (singletonFields (k2 :: r2) v))] k
        (Json.obj (singletonFields (k2 :: r2) v))
        (by simp [dictFind, List.find?]) (k2 :: r2)]
      exact ih (by simp)

theorem lookupPath_cons_general (fs : List (String × Json)) (q : String)
    (Q' : List String) :
    lookupPath (Json.obj fs) (q :: Q')
      = match dictFind fs q with
        | some v => lookupPath v Q'
        | none => none := rfl

theorem mergeD_succ_cons (f : Nat) (base : List (String × Json))
    (p : String × Json) (rest : List (String × Json)) :
    mergeEntriesD (f + 1) base (p :: rest)
      = mergeEntriesD (f + 1)
          (match dictFind base p.1, p.2 with
           | some (Json.obj bv), Json.obj ovv =>
             dictSet base p.1 (Json.obj (mergeEntriesD f bv ovv))
           | _, _ => dictSet base p.1 p.2) rest := rfl

theorem mergeD_succ_nil (f : Nat) (base : List (String × Json)) :
    mergeEntriesD (f + 1) base [] = base := rfl

theorem mergeD_step_nonobj (f : Nat) (base : List (String × Json)) (k : String)
    (v : Json) (hv : isObj v = false) (rest : List (String × Json)) :
    mergeEntriesD (f + 1) base ((k, v) :: rest)
      = mergeEntriesD (f + 1) (dictSet base k v) rest := by
  rw [mergeD_succ_cons]
  rcases hf : dictFind base k with _ | j
  · simp [hf]
  · cases j <;> cases v <;> simp [hf, isObj] at hv ⊢

theorem mergeD_step_obj_obj (f : Nat) (base : List (String × Json)) (k : String)
    (S : List (String × Json)) (rest : List (String × Json))
    (bv : List (String × Json)) (hf : dictFind base k = some (.obj bv)) :
    mergeEntriesD (f + 1) base ((k, .obj S) :: rest)
      = mergeEntriesD (f + 1)
          (dictSet base k (.obj (mergeEntriesD f bv S))) rest := by
  rw [mergeD_succ_cons]
  simp [hf]

theorem mergeD_step_obj_none (f : Nat) (base : List (String × Json)) (k : String)
    (S : List (String × Json)) (rest : List (String × Json))
    (hf : dictFind base k = none) :
    mergeEntriesD (f + 1) base ((k, .obj S) :: rest)
      = mergeEntriesD (f + 1) (dictSet base k (.obj S)) rest := by
  rw [mergeD_succ_cons]
  simp [hf]

theorem prefixesObjOk_spec (pf : List (String × Json)) (P : List String)
    (h : prefixesObjOk pf P = true) :
    ∀ i, i < P.length → ∀ j, lookupPath (Json.obj pf) (P.take i) = some j →
      isObj j = true := by
  intro i hi j hl
  rw [prefixesObjOk, List.all_eq_true] at h
  have h2 := h i (List.mem_range.mpr hi)
  rw [hl] at h2
  exact h2

theorem leafOrAbsentB_spec (pf : List (String × Json)) (P : List String)
    (h : leafOrAbsentB pf P = true) :
    ∀ j, lookupPath (Json.obj pf) P = some j → isObj j = false := by
  intro j hl
  rw [leafOrAbsentB, hl] at h
  simpa using h

/-- Core merge lemma for claim C3: merging a single-leaf override into a
parent object preserves every other leaf of the parent and installs the
override value at the overridden path. -/
theorem mergeSingleton (v : Json) (hv : isObj v = false) :
    ∀ (P : List String) (fuel : Nat) (pf : List (String × Json)),
      P ≠ [] → P.length ≤ fuel →
      prefixesObjOk pf P = true →
      leafOrAbsentB pf P = true →
      (∀ Q w, lookupPath (Json.obj pf) Q = some w → isObj w = false → Q ≠ P →
        lookupPath (Json.obj (mergeEntriesD fuel pf (singletonFields P v))) Q
          = some w)
      ∧ lookupPath (Json.obj (mergeEntriesD fuel pf (singletonFields P v))) P
          = some v := by
  intro P
  induction P with
  | nil => exact fun fuel pf h => absurd rfl h
  | cons k P' ih =>
    intro fuel pf _ hlen hpre hleaf
    cases fuel with
    | zero => simp at hlen
    | succ f =>
      cases P' with
      | nil =>
        -- singletonFields [k] v = [(k, v)]; the merge is a plain assignment
        rw [show singletonFields [k] v = [(k, v)] from rfl,
          mergeD_step_nonobj f pf k v hv [], mergeD_succ_nil]
        constructor
        · intro Q w hQ hw hne
          cases Q with
          | nil =>
            simp only [lookupPath, Option.some.injEq] at hQ
            rw [← hQ] at hw
            simp [isObj] at hw
          | cons q Q' =>
            by_cases hqk : q = k
            · subst hqk
              have hQne : Q' ≠ [] := by
                intro he
                exact hne (by rw [he])
              rcases hfk : dictFind pf q with _ | j
              · rw [lookupPath_cons_none pf q hfk] at hQ
                exact absurd hQ (by simp)
              · rw [lookupPath_cons pf q j hfk] at hQ
                have hjleaf : isObj j = false :=
                  leafOrAbsentB_spec pf [q] hleaf j
                    (by rw [lookupPath_cons pf q j hfk]; exact lookupPath_nil j)
                cases Q' with
                | nil => exact absurd rfl hQne
                | cons q2 Q2 =>
                  rw [lookupPath_nonobj j hjleaf q2 Q2] at hQ
                  exact absurd hQ (by simp)
            · rw [lookupPath_cons_general] at hQ ⊢
              rw [dictFind_set_ne pf k q v hqk]
              exact hQ
        · rw [lookupPath_cons (dictSet pf k v) k v (dictFind_set pf k v)]
          exact lookupPath_nil v
      | cons k2 P2 =>
        -- singletonFields (k :: P') v = [(k, Json.obj (singletonFields P' v))]
        rw [show singletonFields (k :: k2 :: P2) v
          = [(k, Json.obj (singletonFields (k2 :: P2) v))] from rfl]
        rcases hfk : dictFind pf k with _ | j
        · -- key absent in the parent: install the whole singleton subtree
          rw [mergeD_step_obj_none f pf k (singletonFields (k2 :: P2) v) [] hfk,
            mergeD_succ_nil]
          constructor
          · intro Q w hQ hw hne
            cases Q with
            | nil =>
              simp only [lookupPath, Option.some.injEq] at hQ
              rw [← hQ] at hw
              simp [isObj] at hw
            | cons q Q' =>
              by_cases hqk : q = k
              · subst hqk
                rw [lookupPath_cons_none pf q hfk] at hQ
                exact absurd hQ (by simp)
              · rw [lookupPath_cons_general] at hQ ⊢
                rw [dictFind_set_ne pf k q _ hqk]
                exact hQ
          · rw [lookupPath_cons (dictSet pf k (Json.obj (singletonFields (k2 :: P2) v)))
              k (Json.obj (singletonFields (k2 :: P2) v))
              (dictFind_set pf k (Json.obj (singletonFields (k2 :: P2) v)))]
            exact lookup_singleton v (k2 :: P2) (by simp)
        · cases j with
          | obj bv =>
            -- both sides hold objects under k: recursive merge
            rw [mergeD_step_obj_obj f pf k (singletonFields (k2 :: P2) v) [] bv hfk,
              mergeD_succ_nil]
            have hpre2 : prefixesObjOk bv (k2 :: P2) = true := by
              rw [prefixesObjOk, List.all_eq_true]
              intro i hi
              have hi2 : i < (k2 :: P2).length := by simpa using List.mem_range.mp hi
              cases hl : lookupPath (Json.obj bv) ((k2 :: P2).take i) with
              | none => rfl
              | some j2 =>
                have h9 := prefixesObjOk_spec pf (k :: k2 :: P2) hpre (i + 1)
                  (by simp only [List.length_cons] at hi2 ⊢; omega) j2
                  (by rw [List.take_succ_cons,
                    lookupPath_cons pf k (Json.obj bv) hfk]; exact hl)
                simp [h9]
            have hleaf2 : leafOrAbsentB bv (k2 :: P2) = true := by
              rw [leafOrAbsentB]
              cases hl : lookupPath (Json.obj bv) (k2 :: P2) with
              | none => rfl
              | some j2 =>
                have h9 := leafOrAbsentB_spec pf (k :: k2 :: P2) hleaf j2
                  (by rw [lookupPath_cons pf k (Json.obj bv) hfk]; exact hl)
                simp [h9]
            have IH := ih f bv (by simp) (by simpa using hlen) hpre2 hleaf2
            constructor
            · intro Q w hQ hw hne
              cases Q with
              | nil =>
                simp only [lookupPath, Option.some.injEq] at hQ
                rw [← hQ] at hw
                simp [isObj] at hw
              | cons q Q' =>
                by_cases hqk : q = k
                · subst hqk
                  rw [lookupPath_cons pf q (Json.obj bv) hfk] at hQ
                  have hne2 : Q' ≠ k2 :: P2 := by
                    intro he
                    exact hne (by rw [he])
                  rw [lookupPath_cons (dictSet pf q
                      (Json.obj (mergeEntriesD f bv (singletonFields (k2 :: P2) v))))
                    q (Json.obj (mergeEntriesD f bv (singletonFields (k2 :: P2) v)))
                    (dictFind_set pf q _)]
                  exact IH.1 Q' w hQ hw hne2
                · rw [lookupPath_cons_general] at hQ ⊢
                  rw [dictFind_set_ne pf k q _ hqk]
                  exact hQ
            · rw [lookupPath_cons (dictSet pf k
                  (Json.obj (mergeEntriesD f bv (singletonFields (k2 :: P2) v))))
                k (Json.obj (mergeEntriesD f bv (singletonFields (k2 :: P2) v)))
                (dictFind_set pf k _)]
              exact IH.2
          | null =>
            exact absurd (prefixesObjOk_spec pf (k :: k2 :: P2) hpre 1 (by simp)
              Json.null (by rw [show (k :: k2 :: P2).take 1 = [k] from rfl,
                lookupPath_cons pf k Json.null hfk]; exact lookupPath_nil _))
              (by simp [isObj])
          | bool b =>
            exact absurd (prefixesObjOk_spec pf (k :: k2 :: P2) hpre 1 (by simp)
              (Json.bool b) (by rw [show (k :: k2 :: P2).take 1 = [k] from rfl,
                lookupPath_cons pf k (Json.bool b) hfk]; exact lookupPath_nil _))
              (by simp [isObj])
          | num n =>
            exact absurd (prefixesObjOk_spec pf (k :: k2 :: P2) hpre 1 (by simp)
              (Json.num n) (by rw [show (k :: k2 :: P2).take 1 = [k] from rfl,
                lookupPath_cons pf k (Json.num n) hfk]; exact lookupPath_nil _))
              (by simp [isObj])
          | str s2 =>
            exact absurd (prefixesObjOk_spec pf (k :: k2 :: P2) hpre 1 (by simp)
              (Json.str s2) (by rw [show (k :: k2 :: P2).take 1 = [k] from rfl,
                lookupPath_cons pf k (Json.str s2) hfk]; exact lookupPath_nil _))
              (by simp [isObj])
          | arr xs =>
            exact absurd (prefixesObjOk_spec pf (k :: k2 :: P2) hpre 1 (by simp)
              (Json.arr xs) (by rw [show (k :: k2 :: P2).take 1 = [k] from rfl,
                lookupPath_cons pf k (Json.arr xs) hfk]; exact lookupPath_nil _))
              (by simp [isObj])

theorem singleton_length_le_depth (v : Json) :
    ∀ P : List String, P ≠ [] →
      P.length ≤ jdepthFields (singletonFields P v) + 1 := by
  intro P
  induction P with
  | nil => exact fun h => absurd rfl h
  | cons k P' ih =>
    intro _
    cases P' with
    | nil => simp [singletonFields, jdepthFields]
    | cons k2 P2 =>
      have h2 := ih (by simp)
      rw [show singletonFields (k :: k2 :: P2) v
        = [(k, Json.obj (singletonFields (k2 :: P2) v))] from rfl]
      simp only [jdepthFields, jdepth, List.length_cons] at h2 ⊢
      omega

theorem load_extends_merge (sp : List (String × String))
    (fs : List (String × Json)) (childRef : String) (cd : Option String)
    (pc pp ref : String) (childFields pf : List (String × Json))
    (hres : resolve_theme_path sp fs childRef cd = .ok pc)
    (hchild : dictFind fs pc = some (.obj childFields))
    (hext : dictFind childFields "extends" = some (.str ref))
    (href : ref ≠ "")
    (hresp : resolve_theme_path sp fs ref (some (parentDir pc)) = .ok pp)
    (hparent : dictFind fs pp = some (.obj pf))
    (hpext : dictFind pf "extends" = none)
    (hne : pc ≠ pp) :
    load_theme_data sp fs childRef cd
      = .ok (.obj (deepMergeFields pf (removeKey childFields "extends"))) := by
  have hpop : popExtends (Json.obj childFields)
      = (some ref, Json.obj (removeKey childFields "extends")) := by
    unfold popExtends
    simp only [hext]
    rw [if_neg href]
  have hpop2 : popExtends (Json.obj pf) = (none, Json.obj pf) := by
    unfold popExtends
    simp only [hpext]
  unfold load_theme_data
  rw [hres, except_bind_ok]
  show loadWithInheritance sp fs 5 (6 + 1) [] 0 pc = _
  unfold loadWithInheritance
  rw [if_neg (List.not_mem_nil pc), if_neg (by omega : ¬(0 : Nat) > 5), hchild]
  simp only [hpop, List.nil_append]
  rw [hresp, except_bind_ok]
  show (loadWithInheritance sp fs 5 (5 + 1) [pc] (0 + 1) pp >>= _) = _
  unfold loadWithInheritance
  rw [if_neg (by simp [Ne.symm hne]), if_neg (by omega : ¬(0 + 1 : Nat) > 5),
    hparent]
  simp only [hpop2]
  rfl

/-- Claim C3: when a child theme extends a parent and overrides a single
leaf path `P` with a non-dict value `v` (the parent holding dicts along the
proper prefixes of `P` and at most a leaf at `P`), `load_theme_data`
returns the key-wise deep merge of parent and child; that merge leaves
every other leaf of the parent unchanged (so dicts present on both sides
are merged recursively, not wholesale-replaced) and holds `v` at `P`. -/
theorem claim_C3_deep_merge (sp : List (String × String))
    (fs : List (String × Json)) (childRef : String) (cd : Option String)
    (pc pp ref : String) (pf : List (String × Json)) (P : List String)
    (v : Json)
    (hres : resolve_theme_path sp fs childRef cd = .ok pc)
    (hchild : dictFind fs pc
      = some (.obj (("extends", Json.str ref) :: singletonFields P v)))
    (href : ref ≠ "")
    (hresp : resolve_theme_path sp fs ref (some (parentDir pc)) = .ok pp)
    (hparent : dictFind fs pp = some (.obj pf))
    (hpext : dictFind pf "extends" = none)
    (hne : pc ≠ pp)
    (hP : P ≠ []) (hv : isObj v = false)
    (hpre : prefixesObjOk pf P = true)
    (hleaf : leafOrAbsentB pf P = true) :
    load_theme_data sp fs childRef cd
      = .ok (.obj (deepMergeFields pf (singletonFields P v)))
    ∧ (∀ Q w, lookupPath (Json.obj pf) Q = some w → isObj w = false → Q ≠ P →
        lookupPath (Json.obj (deepMergeFields pf (singletonFields P v))) Q
          = some w)
    ∧ lookupPath (Json.obj (deepMergeFields pf (singletonFields P v))) P
      = some v := by
  have hrem : removeKey (("extends", Json.str ref) :: singletonFields P v)
      "extends" = singletonFields P v := by
    simp [removeKey]
  have hload := load_extends_merge sp fs childRef cd pc pp ref
    (("extends", Json.str ref) :: singletonFields P v) pf hres hchild
    (by simp [dictFind, List.find?]) href hresp hparent hpext hne
  rw [hrem] at hload
  have hmain := mergeSingleton v hv P
    (jdepthFields (singletonFields P v) + 1) pf hP
    (singleton_length_le_depth v P hP) hpre hleaf
  exact ⟨hload, hmain.1, hmain.2⟩

/-- Concrete theme pack for the claim C3 witness: the child overrides the
single leaf `colors.accent` of its parent. -/
def mergeFS : List (String × Json) :=
  [("/th/child.json", .obj [("extends", .str "parent.json"),
     ("colors", .obj [("accent", .str "red")])]),
   ("/th/parent.json", .obj
     [("colors", .obj [("accent", .str "blue"), ("bg", .str "black")]),
      ("font", .str "serif")])]

/-- The parent fields of `mergeFS`. -/
def mergeParentFields : List (String × Json) :=
  [("colors", .obj [("accent", .str "blue"), ("bg", .str "black")]),
   ("font", .str "serif")]

/-- Claim C3 witness: the theorem applied to the concrete theme pack; the
untouched leaves `font` and `colors.bg` survive and `colors.accent` takes
the child's value. -/
theorem claim_C3_deep_merge_witness :
    load_theme_data cycleSP mergeFS "t:child.json" none
      = .ok (.obj (deepMergeFields mergeParentFields
          (singletonFields ["colors", "accent"] (.str "red"))))
    ∧ lookupPath (Json.obj (deepMergeFields mergeParentFields
        (singletonFields ["colors", "accent"] (.str "red")))) ["font"]
      = some (.str "serif")
    ∧ lookupPath (Json.obj (deepMergeFields mergeParentFields
        (singletonFields ["colors", "accent"] (.str "red")))) ["colors", "bg"]
      = some (.str "black")
    ∧ lookupPath (Json.obj (deepMergeFields mergeParentFields
        (singletonFields ["colors", "accent"] (.str "red"))))
        ["colors", "accent"]
      = some (.str "red") := by
  have h := claim_C3_deep_merge cycleSP mergeFS "t:child.json" none
    "/th/child.json" "/th/parent.json" "parent.json" mergeParentFields
    ["colors", "accent"] (.str "red")
    rfl rfl (by decide) rfl rfl rfl (by decide) (by decide) rfl rfl rfl
  exact ⟨h.1,
    h.2.1 ["font"] (.str "serif") rfl rfl (by decide),
    h.2.1 ["colors", "bg"] (.str "black") rfl rfl (by decide),
    h.2.2⟩

/-! ## markdown_parser.py: parse_slide_markdown and parse_multi_region_markdown -/

/-- Python `s.lower()` (ASCII case folding; the inputs considered are ASCII). -/
def pyLower (s : String) : String := (s.toList.map Char.toLower).asString

/-- Python `'\n'.join(lines)`. -/
def joinNL : List String → String
  | [] => ""
  | [x] => x
  | x :: y :: t => x ++ "\n" ++ joinNL (y :: t)

/-- Python `float(s)` on decimal literals: optional surrounding whitespace,
optional sign, digits with optional fraction, optional `e`/`E` exponent.
`none` models a `ValueError`.  The special forms `inf`/`nan` and digit-group
underscores accepted by Python have no role here (the call sites immediately
replace a failure by the `-1.0` sentinel and such alt-texts do not occur in
the claims), so they are not modeled. -/
def pyFloat (s : String) : Option PyNum :=
  let cs := stripChars s.toList
  let (sign, cs1) : Int × List Char := match cs with
    | '+' :: t => (1, t)
    | '-' :: t => (-1, t)
    | t => (1, t)
  let ip := cs1.takeWhile Char.isDigit
  let cs2 := cs1.dropWhile Char.isDigit
  let (fp, cs3) : List Char × List Char := match cs2 with
    | '.' :: t => (t.takeWhile Char.isDigit, t.dropWhile Char.isDigit)
    | t => ([], t)
  if ip.isEmpty && fp.isEmpty then none
  else
    let mant : Int := sign * (digitsToNat (ip ++ fp) : Nat)
    let fden : Nat := 10 ^ fp.length
    match cs3 with
    | [] => some ⟨mant, fden⟩
    | e :: t =>
      if e == 'e' || e == 'E' then
        let (epos, t2) : Bool × List Char := match t with
          | '+' :: u => (true, u)
          | '-' :: u => (false, u)
          | u => (true, u)
        let ed := t2.takeWhile Char.isDigit
        let t3 := t2.dropWhile Char.isDigit
        if ed.isEmpty || !t3.isEmpty then none
        else if epos then some ⟨mant * ((10 ^ digitsToNat ed : Nat) : Int), fden⟩
        else some ⟨mant, fden * 10 ^ digitsToNat ed⟩
      else none

/-- `re.match(r'^\[name:\s*([^\]]+)\]$', stripped, re.IGNORECASE)` and, on a
match, `group(1).strip()` as applied at both use sites.  `\s*` may also be
absorbed by the capture `[^\]]+`; applying `strip()` to the capture makes the
two readings agree. -/
def matchNameDirective (s : String) : Option String :=
  match s.toList with
  | '[' :: c1 :: c2 :: c3 :: c4 :: ':' :: rest =>
    if c1.toLower == 'n' && c2.toLower == 'a' && c3.toLower == 'm' &&
       c4.toLower == 'e' then
      match rest.getLast? with
      | some ']' =>
        let inner := rest.dropLast
        if !inner.isEmpty && !inner.contains ']' then some (pyStrip inner.asString)
        else none
      | _ => none
    else none
  | _ => none

/-- `re.match(r'^\[\.(\w+):(\w+):\s*(.+)\]$', stripped)` with the `lower()` /
`strip()` post-processing of markdown_parser.py lines 501-503: returns
(element, property, value).  `\w+` is followed by a literal `:` which is not a
word character, so the greedy run is exactly `takeWhile isWordChar`. -/
def matchStyleDirective (s : String) : Option (String × String × String) :=
  match s.toList with
  | '[' :: '.' :: rest =>
    let e := rest.takeWhile isWordChar
    match rest.dropWhile isWordChar with
    | ':' :: rest2 =>
      let p := rest2.takeWhile isWordChar
      match rest2.dropWhile isWordChar with
      | ':' :: rest3 =>
        if e.isEmpty || p.isEmpty then none
        else
          match rest3.getLast? with
          | some ']' =>
            let inner := rest3.dropLast
            if inner.isEmpty then none
            else some (pyLower e.asString, pyLower p.asString, pyStrip inner.asString)
          | _ => none
      | _ => none
    | _ => none
  | _ => none

/-- `re.match(r'^!\[([^\]]*)\]\((.+)\)\s*$', stripped)`: returns the raw
alt-text and the url.  The argument is always a stripped line, so `\s*$`
forces the final character to be `)`; the greedy `(.+)` with backtracking then
captures everything between `](` and that final `)`, parentheses included
(which is what lets gradients through). -/
def matchImageTag (s : String) : Option (String × String) :=
  match s.toList with
  | '!' :: '[' :: rest =>
    let alt := rest.takeWhile (fun c => c != ']')
    match rest.dropWhile (fun c => c != ']') with
    | ']' :: '(' :: rest2 =>
      match rest2.getLast? with
      | some ')' =>
        let url := rest2.dropLast
        if url.isEmpty then none else some (alt.asString, url.asString)
      | _ => none
    | _ => none
  | _ => none

/-- `re.match(r'^#\s+(.+)$', stripped)` followed by the `group(1).strip()`
applied at every use site.  Lines never contain `'\n'`, and on a stripped
line a nonempty body exists exactly when some non-space follows the
whitespace run. -/
def matchH1 (s : String) : Option String :=
  match s.toList with
  | '#' :: rest =>
    if (rest.takeWhile isPySpace).isEmpty || (rest.dropWhile isPySpace).isEmpty
    then none
    else some (pyStrip (rest.dropWhile isPySpace).asString)
  | _ => none

/-- `re.match(r'^##\s+(.+)$', stripped)` followed by `group(1).strip()`. -/
def matchH2 (s : String) : Option String :=
  match s.toList with
  | '#' :: '#' :: rest =>
    if (rest.takeWhile isPySpace).isEmpty || (rest.dropWhile isPySpace).isEmpty
    then none
    else some (pyStrip (rest.dropWhile isPySpace).asString)
  | _ => none

/-- The `overlay` arm of the modifier loop (markdown_parser.py lines 535-542
and 784-791): the last matching modifier wins; `mod.split(':')[1]` always
exists when `mod` starts with `'overlay:'` (the colon guarantees a second
piece), and a `float()` failure yields the `-1.0` sentinel.  The `overlay`
and `blur` arms of the single Python loop test disjoint modifier shapes, so
folding them separately is equivalent. -/
def overlayOf (modifiers : List String) : Option PyNum :=
  modifiers.foldl (fun acc m =>
    if m == "overlay" then some ⟨-1, 1⟩
    else if pyStartsWith m "overlay:" then
      match pyFloat ((splitOnChar ':' m).getD 1 "") with
      | some q => some q
      | none => some ⟨-1, 1⟩
    else acc) none

/-- The `blur` arm of the same modifier loop. -/
def blurOf (modifiers : List String) : Option PyNum :=
  modifiers.foldl (fun acc m =>
    if m == "blur" then some ⟨-1, 1⟩
    else if pyStartsWith m "blur:" then
      match pyFloat ((splitOnChar ':' m).getD 1 "") with
      | some q => some q
      | none => some ⟨-1, 1⟩
    else acc) none

/-- `elif mod in ('left', 'right', 'top', 'bottom'): position = mod`
(markdown_parser.py lines 799-800); the last match wins, and these arms are
disjoint from the overlay/blur arms of the same loop. -/
def positionOf (modifiers : List String) : String :=
  modifiers.foldl (fun acc m =>
    if m == "left" || m == "right" || m == "top" || m == "bottom" then m
    else acc) ""

/-- `any(m == kw or m.startswith(kw + ':') for m in modifiers)`
(markdown_parser.py lines 525-528). -/
def isPosMod (kw : String) (modifiers : List String) : Bool :=
  modifiers.any (fun m => m == kw || pyStartsWith m (kw ++ ":"))

/-- Mutable state of the parse_slide_markdown while loop: the `result` dict
entries (minus `content`, which is only assembled after the loop) plus the
`content_lines` and `found_title` locals.  `found_subtitle` and
`title_line_idx` are assigned but never read, so they are dropped.  An image
entry is the (modifier, url, line) triple of the Python dict. -/
structure PState where
  title : String := ""
  subtitle : String := ""
  background : String := ""
  background_modifiers : String := ""
  background_position : String := ""
  overlay_opacity : Option PyNum := none
  blur_radius : Option PyNum := none
  images : List (String × String × Nat) := []
  notes : String := ""
  text_style : List (String × List (String × String)) := []
  name : String := ""
  content_lines : List String := []
  found_title : Bool := false
  deriving Repr, DecidableEq

/-- `result['text_style'][element][prop] = value` with the empty-dict
initialization of markdown_parser.py lines 506-508. -/
def styleSet (ts : List (String × List (String × String))) (el p v : String) :
    List (String × List (String × String)) :=
  match dictFind ts el with
  | some inner => dictSet ts el (dictSet inner p v)
  | none => ts ++ [(el, [(p, v)])]

/-- The background-vs-inline decision of markdown_parser.py line 552:
`is_background or is_split or (not content_lines and not found_title and
not alt_text.startswith('inline'))`. -/
def bgDecision (st : PState) (alt : String) : Bool :=
  let modifiers := pyWords alt
  modifiers.contains "background" ||
  (isPosMod "left" modifiers || isPosMod "right" modifiers ||
   isPosMod "top" modifiers || isPosMod "bottom" modifiers) ||
  (st.content_lines.isEmpty && !st.found_title && !pyStartsWith alt "inline")

/-- The background branch (markdown_parser.py lines 553-575): color or
gradient values are stored verbatim, others wrapped in `url(...)`; raw
modifiers are kept; overlay/blur recomputed; the position is only overwritten
when a position modifier is present. -/
def applyBackground (st : PState) (alt value : String) : PState :=
  let modifiers := pyWords alt
  { st with
    background :=
      if pyStartsWith value "#" || strHas (pyLower value) "gradient" then value
      else "url(" ++ value ++ ")",
    background_modifiers := alt,
    overlay_opacity := overlayOf modifiers,
    blur_radius := blurOf modifiers,
    background_position :=
      if isPosMod "left" modifiers then "left"
      else if isPosMod "right" modifiers then "right"
      else if isPosMod "top" modifiers then "top"
      else if isPosMod "bottom" modifiers then "bottom"
      else st.background_position }

/-- The while loop of parse_slide_markdown (markdown_parser.py lines 478-619)
over the remaining lines, with `i` the Python index of the first of them.
Every iteration consumes at least one line, so fuel `lines.length + 1` never
reaches the unreachable 0 case.  The separate inline-image check of lines
590-595 is omitted: it is only reached when the anchored image pattern failed,
and its sole effect is to append the line to `content_lines` -- exactly what
the fall-through content branch does for such a line (which starts with `!`
and therefore matches none of the other patterns). -/
def parseSlideLoop : Nat → Nat → List String → PState → PState
  | 0, _, _, st => st
  | _ + 1, _, [], st => st
  | fuel + 1, i, line :: rest, st =>
    let stripped := pyStrip line
    match matchNameDirective stripped with
    | some nm => parseSlideLoop fuel (i + 1) rest { st with name := nm }
    | none =>
      if pyStartsWith stripped "^" then
        parseSlideLoop fuel (i + 1) rest
          { st with notes := (if st.notes != "" then st.notes ++ "\n" else st.notes)
              ++ pyStrip stripped.toList.tail.asString }
      else
        match matchStyleDirective stripped with
        | some (el, p, v) =>
          parseSlideLoop fuel (i + 1) rest
            { st with text_style := styleSet st.text_style el p v }
        | none =>
          match matchImageTag stripped with
          | some (altRaw, value) =>
            let alt := pyLower altRaw
            if bgDecision st alt then
              parseSlideLoop fuel (i + 1) rest (applyBackground st alt value)
            else
              parseSlideLoop fuel (i + 1) rest
                { st with images := st.images ++ [(alt, value, i)],
                          content_lines := st.content_lines ++ [line] }
          | none =>
            match matchH1 stripped with
            | some t =>
              if !st.found_title then
                let blanks := rest.takeWhile (fun l => pyStrip l == "")
                let rest2 := rest.dropWhile (fun l => pyStrip l == "")
                match rest2 with
                | l2 :: rest3 =>
                  match matchH2 (pyStrip l2) with
                  | some sub =>
                    parseSlideLoop fuel (i + 1 + blanks.length + 1) rest3
                      { st with title := t, found_title := true, subtitle := sub }
                  | none =>
                    parseSlideLoop fuel (i + 1 + blanks.length) rest2
                      { st with title := t, found_title := true }
                | [] => { st with title := t, found_title := true }
              else
                parseSlideLoop fuel (i + 1) rest
                  { st with content_lines := st.content_lines ++ [line] }
            | none =>
              parseSlideLoop fuel (i + 1) rest
                { st with content_lines := st.content_lines ++ [line] }

/-- The result dict of parse_slide_markdown. -/
structure SlideParse where
  title : String := ""
  subtitle : String := ""
  background : String := ""
  background_modifiers : String := ""
  background_position : String := ""
  overlay_opacity : Option PyNum := none
  blur_radius : Option PyNum := none
  content : String := ""
  images : List (String × String × Nat) := []
  notes : String := ""
  text_style : List (String × List (String × String)) := []
  name : String := ""
  deriving Repr, DecidableEq

/-- `MarkdownParser.parse_slide_markdown` (markdown_parser.py lines 421-624). -/
def parse_slide_markdown (markdown : String) : SlideParse :=
  let lines := splitLines (pyStrip markdown)
  let st := parseSlideLoop (lines.length + 1) 0 lines {}
  { title := st.title, subtitle := st.subtitle, background := st.background,
    background_modifiers := st.background_modifiers,
    background_position := st.background_position,
    overlay_opacity := st.overlay_opacity, blur_radius := st.blur_radius,
    content := pyStrip (joinNL st.content_lines),
    images := st.images, notes := st.notes, text_style := st.text_style,
    name := st.name }

/-- One region dict of parse_multi_region_markdown.  In the 0-or-1-image
branch Python builds the dict without `modifiers`/`position` keys; the record
keeps them at their `''` defaults there. -/
structure Region where
  image : String := ""
  modifiers : String := ""
  overlay_opacity : Option PyNum := none
  blur_radius : Option PyNum := none
  position : String := ""
  content : String := ""
  title : String := ""
  subtitle : String := ""
  deriving Repr, DecidableEq

/-- The result dict of parse_multi_region_markdown. -/
structure MultiParse where
  regions : List Region
  direction : String
  notes : String
  name : String
  deriving Repr, DecidableEq

/-- First pass of parse_multi_region_markdown (lines 667-689): collect
(line index, lowered alt-text, url) of every line matching the image pattern
whose alt-text does not contain `inline`.  The pass's name-directive and
note branches `continue` before the image check, but such lines start with
`[` or `^` and can never match the image pattern, so they collect nothing;
their effect on the name/notes fields is modeled by `multiNameNotes`. -/
def collectImageTags : Nat → List String → List (Nat × String × String)
  | _, [] => []
  | i, line :: rest =>
    match matchImageTag (pyStrip line) with
    | some (altRaw, url) =>
      let m := pyLower altRaw
      if strHas m "inline" then collectImageTags (i + 1) rest
      else (i, m, url) :: collectImageTags (i + 1) rest
    | none => collectImageTags (i + 1) rest

/-- Name and notes accumulation of the same first pass (lines 671-681):
the last name directive wins; notes accumulate with `'\n'` separators. -/
def multiNameNotes : List String → String → String → String × String
  | [], nm, nts => (nm, nts)
  | line :: rest, nm, nts =>
    let stripped := pyStrip line
    match matchNameDirective stripped with
    | some v => multiNameNotes rest v nts
    | none =>
      if pyStartsWith stripped "^" then
        multiNameNotes rest nm ((if nts != "" then nts ++ "\n" else nts)
          ++ pyStrip stripped.toList.tail.asString)
      else multiNameNotes rest nm nts

/-- One step of the region title/subtitle extraction loop (lines 752-772),
on state (title, subtitle, content_started, kept lines).  The H1 and H2
patterns are mutually exclusive on any one line, so a line failing a
branch's flag tests falls through to the content branch exactly as in the
source's sequential checks; the inner `if not stripped or h2_match` of line
765 is always true when reached. -/
def regionStep (acc : String × String × Bool × List String) (line : String) :
    String × String × Bool × List String :=
  let (t, s, started, ls) := acc
  let stripped := pyStrip line
  match matchH1 stripped with
  | some v =>
    if t == "" && !started then (v, s, started, ls)
    else (t, s, started || stripped != "", ls ++ [line])
  | none =>
    match matchH2 stripped with
    | some v =>
      if t != "" && s == "" && !started then (t, v, started, ls)
      else (t, s, started || stripped != "", ls ++ [line])
    | none => (t, s, started || stripped != "", ls ++ [line])

/-- One region of the multi-image branch (lines 730-811): lines from the tag
(exclusive) to `endIdx` (exclusive), notes dropped, titles extracted,
color/gradient urls kept verbatim, modifiers parsed per region. -/
def buildRegion (lines : List String) (tag : Nat × String × String)
    (endIdx : Nat) : Region :=
  let span := (lines.drop (tag.1 + 1)).take (endIdx - (tag.1 + 1))
  let region_lines := span.filter (fun l => !pyStartsWith (pyStrip l) "^")
  let ext := region_lines.foldl regionStep ("", "", false, [])
  let mod_list := pyWords tag.2.1
  { image :=
      if pyStartsWith tag.2.2 "#" || strHas (pyLower tag.2.2) "gradient"
      then tag.2.2 else "url(" ++ tag.2.2 ++ ")",
    modifiers := tag.2.1,
    overlay_opacity := overlayOf mod_list,
    blur_radius := blurOf mod_list,
    position := positionOf mod_list,
    content := pyStrip (joinNL ext.2.2.2),
    title := ext.1,
    subtitle := ext.2.1 }

/-- The region list of the multi-image branch: each region ends where the
next image tag begins, the last one at the end of the slide. -/
def buildRegions (lines : List String) :
    List (Nat × String × String) → List Region
  | [] => []
  | t :: rest =>
    buildRegion lines t
        (match rest with
         | t2 :: _ => t2.1
         | [] => lines.length)
      :: buildRegions lines rest

/-- `MarkdownParser.parse_multi_region_markdown` (markdown_parser.py lines
626-813). -/
def parse_multi_region_markdown (markdown : String) : MultiParse :=
  let lines := splitLines (pyStrip markdown)
  let tags := collectImageTags 0 lines
  if tags.length ≤ 1 then
    let single := parse_slide_markdown markdown
    { regions :=
        [if single.background != "" then
          { image := single.background, overlay_opacity := single.overlay_opacity,
            blur_radius := single.blur_radius, content := single.content,
            title := single.title, subtitle := single.subtitle }
         else
          { image := "", overlay_opacity := none, blur_radius := none,
            content := single.content, title := single.title,
            subtitle := single.subtitle }],
      direction :=
        if single.background_position == "top" ||
           single.background_position == "bottom"
        then "vertical" else "horizontal",
      notes := single.notes,
      name := single.name }
  else
    { regions := buildRegions lines tags,
      direction :=
        if (tags.any fun t => strHas t.2.1 "top" || strHas t.2.1 "bottom") &&
           !(tags.any fun t => strHas t.2.1 "left" || strHas t.2.1 "right")
        then "vertical" else "horizontal",
      notes := (multiNameNotes lines "" "").2,
      name := (multiNameNotes lines "" "").1 }

/-- Claim-side background value rule: '#'-prefixed or gradient-containing
values are stored verbatim, others wrapped as url(value). -/
def claimBgValue (value : String) : String :=
  if pyStartsWith value "#" || strHas (pyLower value) "gradient" then value
  else "url(" ++ value ++ ")"

/-- Amended claim-side background condition: the alt-text contains the
modifier `background`, or any position keyword left/right/top/bottom, or no
line has yet been kept as slide content (blank lines included) and no title
has been found and the alt-text does not start with `inline`. -/
def claimBgCondAmended (st : PState) (alt : String) : Bool :=
  (pyWords alt).contains "background" ||
  (isPosMod "left" (pyWords alt) || isPosMod "right" (pyWords alt) ||
   isPosMod "top" (pyWords alt) || isPosMod "bottom" (pyWords alt)) ||
  (st.content_lines.isEmpty && !st.found_title && !pyStartsWith alt "inline")

theorem bgDecision_eq_claim (st : PState) (alt : String) :
    bgDecision st alt = claimBgCondAmended st alt := rfl

theorem applyBackground_fields (st : PState) (alt value : String) :
    (applyBackground st alt value).background = claimBgValue value ∧
    (applyBackground st alt value).content_lines = st.content_lines ∧
    (applyBackground st alt value).images = st.images :=
  ⟨rfl, rfl, rfl⟩

theorem matchImageTag_shape (s : String) (p : String × String)
    (h : matchImageTag s = some p) : ∃ r, s.toList = '!' :: '[' :: r := by
  unfold matchImageTag at h
  split at h
  next rest heq => exact ⟨rest, heq⟩
  next => exact Option.noConfusion h

theorem matchNameDirective_of_head (s : String) (c : Char) (r : List Char)
    (hs : s.toList = c :: r) (hc : c ≠ '[') : matchNameDirective s = none := by
  unfold matchNameDirective
  rw [hs]
  split
  next heq =>
    injection heq with h1 _
    exact absurd h1 hc
  next => rfl

theorem matchStyleDirective_of_head (s : String) (c : Char) (r : List Char)
    (hs : s.toList = c :: r) (hc : c ≠ '[') : matchStyleDirective s = none := by
  unfold matchStyleDirective
  rw [hs]
  split
  next heq =>
    injection heq with h1 _
    exact absurd h1 hc
  next => rfl

theorem pyStartsWith_caret (s : String) (c : Char) (r : List Char)
    (hs : s.toList = c :: r) (hc : ('^' == c) = false) :
    pyStartsWith s "^" = false := by
  unfold pyStartsWith
  rw [hs]
  show List.isPrefixOf ['^'] (c :: r) = false
  simp [List.isPrefixOf, hc]

theorem c8_step (fuel i : Nat) (line : String) (rest : List String)
    (st : PState) (altRaw value : String)
    (himg : matchImageTag (pyStrip line) = some (altRaw, value)) :
    ∃ st2, parseSlideLoop (fuel + 1) i (line :: rest) st =
        parseSlideLoop fuel (i + 1) rest st2 ∧
      (claimBgCondAmended st (pyLower altRaw) = true →
        st2.background = claimBgValue value ∧
        st2.content_lines = st.content_lines ∧ st2.images = st.images) ∧
      (claimBgCondAmended st (pyLower altRaw) = false →
        st2.background = st.background ∧
        st2.content_lines = st.content_lines ++ [line] ∧
        st2.images = st.images ++ [(pyLower altRaw, value, i)]) := by
  obtain ⟨r, hs⟩ := matchImageTag_shape _ _ himg
  have hname := matchNameDirective_of_head _ _ _ hs (by decide)
  have hstyle := matchStyleDirective_of_head _ _ _ hs (by decide)
  have hnote := pyStartsWith_caret _ _ _ hs (by decide)
  refine ⟨if claimBgCondAmended st (pyLower altRaw) = true then
            applyBackground st (pyLower altRaw) value
          else { st with images := st.images ++ [(pyLower altRaw, value, i)],
                         content_lines := st.content_lines ++ [line] },
          ?_, ?_, ?_⟩
  · simp only [parseSlideLoop, hname, hnote, hstyle, himg,
      Bool.false_eq_true, if_false]
    rw [bgDecision_eq_claim]
    by_cases hb : claimBgCondAmended st (pyLower altRaw) = true
    · rw [if_pos hb, if_pos hb]
    · rw [if_neg hb, if_neg hb]
  · intro hb
    rw [if_pos hb]
    exact applyBackground_fields st (pyLower altRaw) value
  · intro hb
    rw [if_neg (by simp [hb])]
    exact ⟨rfl, rfl, rfl⟩

theorem buildRegions_length (lines : List String)
    (ts : List (Nat × String × String)) :
    (buildRegions lines ts).length = ts.length := by
  induction ts with
  | nil => rfl
  | cons t rest ih => simp [buildRegions, ih]

theorem c9_count (md : String)
    (h : 1 < (collectImageTags 0 (splitLines (pyStrip md))).length) :
    (parse_multi_region_markdown md).regions.length =
      (collectImageTags 0 (splitLines (pyStrip md))).length := by
  simp only [parse_multi_region_markdown]
  rw [if_neg (by omega)]
  exact buildRegions_length _ _

theorem c9_direction (md : String)
    (h : 1 < (collectImageTags 0 (splitLines (pyStrip md))).length) :
    ((parse_multi_region_markdown md).direction = "vertical" ↔
      ((∃ t ∈ collectImageTags 0 (splitLines (pyStrip md)),
          strHas t.2.1 "top" = true ∨ strHas t.2.1 "bottom" = true) ∧
       ¬ ∃ t ∈ collectImageTags 0 (splitLines (pyStrip md)),
          strHas t.2.1 "left" = true ∨ strHas t.2.1 "right" = true)) := by
  simp only [parse_multi_region_markdown]
  rw [if_neg (by omega)]
  have key : ∀ (a b : Bool),
      ((if a && !b then "vertical" else "horizontal") = "vertical" ↔
        (a = true ∧ b = false)) := by
    intro a b
    cases a <;> cases b <;> decide
  show (if _ && !_ then "vertical" else "horizontal") = "vertical" ↔ _
  rw [key]
  simp [List.any_eq_true, Bool.or_eq_true]

theorem c9_degenerate (md : String)
    (h : (collectImageTags 0 (splitLines (pyStrip md))).length ≤ 1) :
    ∃ reg, (parse_multi_region_markdown md).regions = [reg] ∧
      reg.title = (parse_slide_markdown md).title ∧
      reg.subtitle = (parse_slide_markdown md).subtitle ∧
      reg.content = (parse_slide_markdown md).content ∧
      reg.image = (parse_slide_markdown md).background := by
  simp only [parse_multi_region_markdown]
  rw [if_pos h]
  by_cases hbg : (parse_slide_markdown md).background = ""
  · rw [if_neg (by simp [hbg])]
    exact ⟨_, rfl, rfl, rfl, rfl, hbg.symm⟩
  · rw [if_pos (by simp [hbg])]
    exact ⟨_, rfl, rfl, rfl, rfl, rfl⟩

/-- C8 (counterexample): the claim decides the background/inline question by
whether the alt-text *contains* the keyword `inline` and whether the tag is
the first *non-empty* non-title content line; the code tests
`alt_text.startswith('inline')` and `not content_lines` (blank lines
included).  A lone tag whose alt-text is `big inline` contains the keyword
yet becomes the background with empty content; a tag preceded only by a name
directive and a blank line is the first non-empty non-title content line yet
stays in content, because the blank line was already kept as content. -/
theorem claim_C8_counterexample :
    (parse_slide_markdown "![big inline](a.jpg)").background = "url(a.jpg)"
    ∧ (parse_slide_markdown "![big inline](a.jpg)").content = ""
    ∧ (parse_slide_markdown "![big inline](a.jpg)").images = []
    ∧ (pyWords (pyLower "big inline")).contains "inline" = true
    ∧ (pyWords (pyLower "big inline")).contains "background" = false
    ∧ isPosMod "left" (pyWords (pyLower "big inline")) = false
    ∧ isPosMod "right" (pyWords (pyLower "big inline")) = false
    ∧ isPosMod "top" (pyWords (pyLower "big inline")) = false
    ∧ isPosMod "bottom" (pyWords (pyLower "big inline")) = false
    ∧ (parse_slide_markdown "[name: n]\n\n![photo](a.jpg)").background = ""
    ∧ (parse_slide_markdown "[name: n]\n\n![photo](a.jpg)").images
        = [("photo", "a.jpg", 2)] := by
  decide

/-- C8 (amended): at any loop state, a line matching the image pattern is
parsed as the slide background exactly when its alt-text contains the
modifier `background`, or a position keyword left/right/top/bottom, or no
line has yet been kept as slide content (blank lines included) and no title
has been found and the alt-text does not start with `inline`; otherwise the
tag is recorded as an inline image and the line stays in content.  A
background value starting with `#` or containing `gradient` is stored
verbatim, any other value is wrapped as url(value); concrete slides
exercise both value forms, a position modifier, and the inline case. -/
theorem claim_C8_background :
    (∀ (fuel i : Nat) (line : String) (rest : List String) (st : PState)
        (altRaw value : String),
        matchImageTag (pyStrip line) = some (altRaw, value) →
        ∃ st2, parseSlideLoop (fuel + 1) i (line :: rest) st =
            parseSlideLoop fuel (i + 1) rest st2 ∧
          (claimBgCondAmended st (pyLower altRaw) = true →
            st2.background = claimBgValue value ∧
            st2.content_lines = st.content_lines ∧ st2.images = st.images) ∧
          (claimBgCondAmended st (pyLower altRaw) = false →
            st2.background = st.background ∧
            st2.content_lines = st.content_lines ++ [line] ∧
            st2.images = st.images ++ [(pyLower altRaw, value, i)]))
    ∧ (parse_slide_markdown "![background](pic.png)").background = "url(pic.png)"
    ∧ (parse_slide_markdown "![background](#1a1a2e)").background = "#1a1a2e"
    ∧ (parse_slide_markdown "![background](linear-gradient(red,blue))").background
        = "linear-gradient(red,blue)"
    ∧ (parse_slide_markdown "![left](photo.jpg)").background = "url(photo.jpg)"
    ∧ (parse_slide_markdown "![left](photo.jpg)").background_position = "left"
    ∧ (parse_slide_markdown "x\n![pic](a.jpg)").background = ""
    ∧ (parse_slide_markdown "x\n![pic](a.jpg)").content = "x\n![pic](a.jpg)"
    ∧ (parse_slide_markdown "x\n![pic](a.jpg)").images = [("pic", "a.jpg", 1)] :=
  ⟨c8_step, by decide, by decide, by decide, by decide, by decide, by decide,
   by decide, by decide⟩

theorem claim_C8_background_witness :
    ∃ st2, parseSlideLoop 2 0 ["![background](bg.png)"] ({} : PState) =
        parseSlideLoop 1 1 [] st2 ∧
      (claimBgCondAmended {} (pyLower "background") = true →
        st2.background = claimBgValue "bg.png" ∧
        st2.content_lines = ({} : PState).content_lines ∧
        st2.images = ({} : PState).images) ∧
      (claimBgCondAmended {} (pyLower "background") = false →
        st2.background = ({} : PState).background ∧
        st2.content_lines = ({} : PState).content_lines ++ ["![background](bg.png)"] ∧
        st2.images = ({} : PState).images ++ [(pyLower "background", "bg.png", 0)]) :=
  claim_C8_background.1 1 0 "![background](bg.png)" [] {} "background" "bg.png"
    (by decide)

/-- C9: with more than one non-inline image tag, parse_multi_region_markdown
produces exactly one region per tag; the direction is `vertical` exactly when
some tag's alt-text mentions top/bottom and none mentions left/right; with at
most one tag the result degenerates to the single-slide parse wrapped in a
one-element region list; a left/right pair gives two horizontal regions whose
spans run from each tag to the next tag or the end, and a top/bottom pair is
vertical. -/
theorem claim_C9_regions :
    (∀ md : String,
        1 < (collectImageTags 0 (splitLines (pyStrip md))).length →
        (parse_multi_region_markdown md).regions.length =
          (collectImageTags 0 (splitLines (pyStrip md))).length)
    ∧ (∀ md : String,
        1 < (collectImageTags 0 (splitLines (pyStrip md))).length →
        ((parse_multi_region_markdown md).direction = "vertical" ↔
          ((∃ t ∈ collectImageTags 0 (splitLines (pyStrip md)),
              strHas t.2.1 "top" = true ∨ strHas t.2.1 "bottom" = true) ∧
           ¬ ∃ t ∈ collectImageTags 0 (splitLines (pyStrip md)),
              strHas t.2.1 "left" = true ∨ strHas t.2.1 "right" = true)))
    ∧ (∀ md : String,
        (collectImageTags 0 (splitLines (pyStrip md))).length ≤ 1 →
        ∃ reg, (parse_multi_region_markdown md).regions = [reg] ∧
          reg.title = (parse_slide_markdown md).title ∧
          reg.subtitle = (parse_slide_markdown md).subtitle ∧
          reg.content = (parse_slide_markdown md).content ∧
          reg.image = (parse_slide_markdown md).background)
    ∧ (parse_multi_region_markdown
          "![left](a.jpg)\n# LT\n## LS\nbody\n![right](b.jpg)\ntext").regions.map
        (fun reg => (reg.title, reg.subtitle, reg.content, reg.image, reg.position))
        = [("LT", "LS", "body", "url(a.jpg)", "left"),
           ("", "", "text", "url(b.jpg)", "right")]
    ∧ (parse_multi_region_markdown
          "![left](a.jpg)\n# LT\n## LS\nbody\n![right](b.jpg)\ntext").direction
        = "horizontal"
    ∧ (parse_multi_region_markdown "![top](a.jpg)\nT\n![bottom](b.jpg)\nB").regions.length = 2
    ∧ (parse_multi_region_markdown "![top](a.jpg)\nT\n![bottom](b.jpg)\nB").direction
        = "vertical" :=
  ⟨c9_count, c9_direction, c9_degenerate, by decide, by decide, by decide,
   by decide⟩

theorem claim_C9_regions_witness :
    ((parse_multi_region_markdown "![left](a.jpg)\nL\n![right](b.jpg)\nR").regions.length
      = (collectImageTags 0
          (splitLines (pyStrip "![left](a.jpg)\nL\n![right](b.jpg)\nR"))).length)
    ∧ ∃ reg, (parse_multi_region_markdown "# Solo\ntext").regions = [reg] ∧
        reg.title = (parse_slide_markdown "# Solo\ntext").title ∧
        reg.subtitle = (parse_slide_markdown "# Solo\ntext").subtitle ∧
        reg.content = (parse_slide_markdown "# Solo\ntext").content ∧
        reg.image = (parse_slide_markdown "# Solo\ntext").background :=
  ⟨claim_C9_regions.1 "![left](a.jpg)\nL\n![right](b.jpg)\nR" (by decide),
   claim_C9_regions.2.2.1 "# Solo\ntext" (by decide)⟩

end Stagdeck
